import Mathlib

/-!
Verification of the L402 payment-gating core of src/api/server.py.

The Python code is shallowly embedded as executable Lean definitions:

* Python `str` is `String` (operations work on `String.data`);
  Python `bytes` is `List Nat` with every element `< 256`.
* `hashlib.sha256`, `hmac.new(..., sha256)`, `base64.urlsafe_b64encode` /
  `urlsafe_b64decode`, `bytes.fromhex`, `str.encode` / `bytes.decode`
  and `int(str)` are implemented concretely below.
* `SERVER_SECRET` (environment/random), the current `time.time()` value,
  the LNbits backend reached through `check_invoice_paid`, and the content
  loaders (`load_skill_content`, the parser modules) are external inputs
  and appear as parameters of the embedded functions.
* Python exceptions caught by the broad `except` of `verify_l402_auth`
  are modelled by `Option` results of the fallible primitives; each
  `none` is routed to the `"Verification failed: ..."` dictionary, whose
  detail text summarizes `str(e)`.
* Flask endpoint handlers are modelled as pure functions returning the
  response, the updated payment store and the list of external effects
  (invoice creation, persistence writes) they perform.
-/

set_option maxRecDepth 16384
set_option maxHeartbeats 40000000

/-- 2^32, the modulus for 32-bit words. -/
def M32 : Nat := 4294967296

/-- SHA-256 round constants (FIPS 180-4). -/
def shaK : List Nat := [1116352408, 1899447441, 3049323471, 3921009573, 961987163, 1508970993, 2453635748, 2870763221, 3624381080, 310598401, 607225278, 1426881987, 1925078388, 2162078206, 2614888103, 3248222580, 3835390401, 4022224774, 264347078, 604807628, 770255983, 1249150122, 1555081692, 1996064986, 2554220882, 2821834349, 2952996808, 3210313671, 3336571891, 3584528711, 113926993, 338241895, 666307205, 773529912, 1294757372, 1396182291, 1695183700, 1986661051, 2177026350, 2456956037, 2730485921, 2820302411, 3259730800, 3345764771, 3516065817, 3600352804, 4094571909, 275423344, 430227734, 506948616, 659060556, 883997877, 958139571, 1322822218, 1537002063, 1747873779, 1955562222, 2024104815, 2227730452, 2361852424, 2428436474, 2756734187, 3204031479, 3329325298]

/-- Rotate a 32-bit word right by n bits (arithmetic formulation). -/
def rotr (n b : Nat) : Nat := b / 2 ^ n + b % 2 ^ n * 2 ^ (32 - n)

/-- The eight 32-bit words of SHA-256 working state. -/
structure Hash8 where
  a : Nat
  b : Nat
  c : Nat
  d : Nat
  e : Nat
  f : Nat
  g : Nat
  h : Nat
deriving DecidableEq, Repr

/-- Initial SHA-256 hash state (FIPS 180-4). -/
def shaH0 : Hash8 := ⟨1779033703, 3144134277, 1013904242, 2773480762, 1359893119, 2600822924, 528734635, 1541459225⟩

/-- One SHA-256 compression round with round constant k and schedule word w. -/
def roundStep (st : Hash8) (k w : Nat) : Hash8 :=
  let s1 := (rotr 6 st.e) ^^^ (rotr 11 st.e) ^^^ (rotr 25 st.e)
  let ch := (st.e &&& st.f) ^^^ ((M32 - 1 - st.e) &&& st.g)
  let t1 := (st.h + s1 + ch + k + w) % M32
  let s0 := (rotr 2 st.a) ^^^ (rotr 13 st.a) ^^^ (rotr 22 st.a)
  let mj := (st.a &&& st.b) ^^^ (st.a &&& st.c) ^^^ (st.b &&& st.c)
  let t2 := (s0 + mj) % M32
  ⟨(t1 + t2) % M32, st.a, st.b, st.c, (st.d + t1) % M32, st.e, st.f, st.g⟩

/-- Run the 64 SHA-256 rounds over paired constants and schedule words. -/
def roundsGo : List Nat → List Nat → Hash8 → Hash8
  | k :: ks, w :: ws, st => roundsGo ks ws (roundStep st k w)
  | _, _, st => st

/-- Extend the 16 message words by n further schedule words. -/
def extendW : Nat → List Nat → List Nat
  | 0, ws => ws
  | n + 1, ws =>
    let t := ws.length
    let w15 := ws.getD (t - 15) 0
    let w2 := ws.getD (t - 2) 0
    let w16 := ws.getD (t - 16) 0
    let w7 := ws.getD (t - 7) 0
    let e0 := (rotr 7 w15) ^^^ (rotr 18 w15) ^^^ (w15 / 8)
    let e1 := (rotr 17 w2) ^^^ (rotr 19 w2) ^^^ (w2 / 1024)
    extendW n (ws ++ [(w16 + e0 + w7 + e1) % M32])

/-- Big-endian 32-bit words from bytes. -/
def words4 : List Nat → List Nat
  | b1 :: b2 :: b3 :: b4 :: rest => (b1 * 16777216 + b2 * 65536 + b3 * 256 + b4) :: words4 rest
  | _ => []

/-- Process one 64-byte block. -/
def shaBlock (st : Hash8) (blockBytes : List Nat) : Hash8 :=
  let ws := extendW 48 (words4 blockBytes)
  let r := roundsGo shaK ws st
  ⟨(st.a + r.a) % M32, (st.b + r.b) % M32, (st.c + r.c) % M32, (st.d + r.d) % M32,
   (st.e + r.e) % M32, (st.f + r.f) % M32, (st.g + r.g) % M32, (st.h + r.h) % M32⟩

/-- Split a byte list into 64-byte chunks (fueled recursion). -/
def chunks64 : Nat → List Nat → List (List Nat)
  | 0, _ => []
  | _, [] => []
  | n + 1, l => l.take 64 :: chunks64 n (l.drop 64)

/-- The 8-byte big-endian length field of SHA-256 padding. -/
def lenBytes (n : Nat) : List Nat :=
  [n / 72057594037927936 % 256, n / 281474976710656 % 256, n / 1099511627776 % 256,
   n / 4294967296 % 256, n / 16777216 % 256, n / 65536 % 256, n / 256 % 256, n % 256]

/-- SHA-256 message padding: 0x80, zeros to 56 mod 64, then bit length. -/
def shaPad (msg : List Nat) : List Nat :=
  msg ++ 128 :: List.replicate ((119 - msg.length % 64) % 64) 0 ++ lenBytes (msg.length * 8)

/-- Big-endian bytes of one 32-bit word. -/
def wordBytes (w : Nat) : List Nat := [w / 16777216 % 256, w / 65536 % 256, w / 256 % 256, w % 256]

/-- SHA-256 digest of a byte list, as 32 bytes. -/
def sha256Bytes (msg : List Nat) : List Nat :=
  let padded := shaPad msg
  let st := (chunks64 padded.length padded).foldl shaBlock shaH0
  wordBytes st.a ++ wordBytes st.b ++ wordBytes st.c ++ wordBytes st.d ++
  wordBytes st.e ++ wordBytes st.f ++ wordBytes st.g ++ wordBytes st.h

/-- Lowercase hex digit for n % 16: digits are '0' + d, letters 'a' + (d - 10). -/
def hexDigitChar (n : Nat) : Char :=
  let d := n % 16
  if d < 10 then Char.ofNat (48 + d) else Char.ofNat (87 + d)

/-- Two lowercase hex chars of a byte. -/
def byteHexChars (b : Nat) : List Char := [hexDigitChar (b / 16), hexDigitChar b]

/-- Lowercase hex string of a byte list (Python bytes.hex / hexdigest). -/
def hexOfBytes (bs : List Nat) : String := ⟨bs.flatMap byteHexChars⟩

/-- hexdigest of SHA-256, as in hashlib.sha256(msg).hexdigest(). -/
def sha256Hex (msg : List Nat) : String := hexOfBytes (sha256Bytes msg)

/-- HMAC-SHA256 digest bytes (RFC 2104, block size 64). -/
def hmacSha256Bytes (key msg : List Nat) : List Nat :=
  let k0 := if 64 < key.length then sha256Bytes key else key
  let kp := k0 ++ List.replicate (64 - k0.length) 0
  sha256Bytes (kp.map (fun b => b ^^^ 92) ++ sha256Bytes (kp.map (fun b => b ^^^ 54) ++ msg))

/-- hexdigest of HMAC-SHA256, as in hmac.new(key, msg, sha256).hexdigest(). -/
def hmacSha256Hex (key msg : List Nat) : String := hexOfBytes (hmacSha256Bytes key msg)

/-- UTF-8 encoding of one character. -/
def utf8EncodeChar (c : Char) : List Nat :=
  let n := c.toNat
  if n < 128 then [n]
  else if n < 2048 then [192 + n / 64, 128 + n % 64]
  else if n < 65536 then [224 + n / 4096, 128 + n / 64 % 64, 128 + n % 64]
  else [240 + n / 262144, 128 + n / 4096 % 64, 128 + n / 64 % 64, 128 + n % 64]

/-- UTF-8 encoding of a character list (Python str.encode). -/
def utf8Bytes (cs : List Char) : List Nat := cs.flatMap utf8EncodeChar

/-- The urlsafe base64 alphabet (RFC 4648 section 5), as used by
base64.urlsafe_b64encode. -/
def b64Alpha : List Char := "ABCDEFGHIJKLMNOPQRSTUVWXYZabcdefghijklmnopqrstuvwxyz0123456789-_".data

/-- Character for a 6-bit value. -/
def b64Char (n : Nat) : Char := b64Alpha.getD n 'A'

/-- Index of a character in the urlsafe alphabet. -/
def b64ValAux (c : Char) : List Char → Nat → Option Nat
  | [], _ => none
  | x :: xs, i => if x = c then some i else b64ValAux c xs (i + 1)

/-- 6-bit value of an alphabet character, none for anything else. -/
def b64Val (c : Char) : Option Nat := b64ValAux c b64Alpha 0

/-- base64.urlsafe_b64encode of a byte list, as characters. -/
def b64encodeChars : List Nat → List Char
  | [] => []
  | [b1] => [b64Char (b1 / 4), b64Char (b1 % 4 * 16), '=', '=']
  | [b1, b2] => [b64Char (b1 / 4), b64Char (b1 % 4 * 16 + b2 / 16), b64Char (b2 % 16 * 4), '=']
  | b1 :: b2 :: b3 :: rest =>
    b64Char (b1 / 4) :: b64Char (b1 % 4 * 16 + b2 / 16) :: b64Char (b2 % 16 * 4 + b3 / 64) ::
    b64Char (b3 % 64) :: b64encodeChars rest

/-- base64.urlsafe_b64decode of a character list; none models the raised
binascii.Error. Modelled for well-padded input: groups of four alphabet
characters with up to two final padding characters (as the server itself
produces); leftover bits of a padded group are discarded, as in CPython. -/
def b64decodeChars : List Char → Option (List Nat)
  | [] => some []
  | c1 :: c2 :: c3 :: c4 :: rest =>
    match b64Val c1, b64Val c2 with
    | some x1, some x2 =>
      if c3 = '=' ∧ c4 = '=' ∧ rest = [] then some [x1 * 4 + x2 / 16]
      else if c4 = '=' ∧ rest = [] then
        match b64Val c3 with
        | some x3 => some [x1 * 4 + x2 / 16, x2 % 16 * 16 + x3 / 4]
        | none => none
      else
        match b64Val c3, b64Val c4 with
        | some x3, some x4 =>
          (b64decodeChars rest).map
            (fun bs => (x1 * 4 + x2 / 16) :: (x2 % 16 * 16 + x3 / 4) :: (x3 % 4 * 64 + x4) :: bs)
        | _, _ => none
    | _, _ => none
  | _ => none

/-- Strict UTF-8 decoding of a byte list, as performed by bytes.decode();
none models the raised UnicodeDecodeError. -/
def utf8Decode : List Nat → Option (List Char)
  | [] => some []
  | b :: rest =>
    if b < 128 then (utf8Decode rest).map (fun cs => Char.ofNat b :: cs)
    else if b < 194 then none
    else match rest with
      | [] => none
      | c1 :: rest1 =>
        if c1 < 128 ∨ 192 ≤ c1 then none
        else if b < 224 then
          (utf8Decode rest1).map (fun cs => Char.ofNat ((b - 192) * 64 + (c1 - 128)) :: cs)
        else match rest1 with
          | [] => none
          | c2 :: rest2 =>
            if c2 < 128 ∨ 192 ≤ c2 then none
            else if b < 240 then
              let n := (b - 224) * 4096 + (c1 - 128) * 64 + (c2 - 128)
              if n < 2048 ∨ (55296 ≤ n ∧ n < 57344) then none
              else (utf8Decode rest2).map (fun cs => Char.ofNat n :: cs)
            else match rest2 with
              | [] => none
              | c3 :: rest3 =>
                if c3 < 128 ∨ 192 ≤ c3 then none
                else if b < 245 then
                  let n := (b - 240) * 262144 + (c1 - 128) * 4096 + (c2 - 128) * 64 + (c3 - 128)
                  if n < 65536 ∨ 1114111 < n then none
                  else (utf8Decode rest3).map (fun cs => Char.ofNat n :: cs)
                else none

/-- Value of a hexadecimal digit character. -/
def hexVal (c : Char) : Option Nat :=
  if '0' ≤ c ∧ c ≤ '9' then some (c.toNat - 48)
  else if 'a' ≤ c ∧ c ≤ 'f' then some (c.toNat - 87)
  else if 'A' ≤ c ∧ c ≤ 'F' then some (c.toNat - 55)
  else none

/-- bytes.fromhex: pairs of hex digits form bytes, spaces between bytes are
skipped; none models the raised ValueError. -/
def fromHexChars : List Char → Option (List Nat)
  | [] => some []
  | c1 :: rest =>
    if c1 = ' ' then fromHexChars rest
    else match rest with
      | [] => none
      | c2 :: rest2 =>
        match hexVal c1, hexVal c2 with
        | some h1, some h2 => (fromHexChars rest2).map (fun bs => (h1 * 16 + h2) :: bs)
        | _, _ => none

/-- Value of a decimal digit character. -/
def digitVal (c : Char) : Option Nat :=
  if '0' ≤ c ∧ c ≤ '9' then some (c.toNat - 48) else none

/-- Left-to-right decimal accumulation; the accumulator is none until the
first digit has been read, so the empty digit string is rejected. -/
def digitsVal : List Char → Option Nat → Option Nat
  | [], acc => acc
  | c :: rest, acc =>
    match digitVal c, acc with
    | some d, some n => digitsVal rest (some (n * 10 + d))
    | some d, none => digitsVal rest (some d)
    | none, _ => none

/-- Python int(str): optional sign followed by decimal digits; none models
the raised ValueError. (Surrounding whitespace and underscore separators,
which int() also accepts, are not modelled; minted tokens never carry them.) -/
def pyIntChars : List Char → Option Int
  | [] => none
  | c :: rest =>
    if c = '-' then (digitsVal rest none).map (fun n => -(n : Int))
    else if c = '+' then (digitsVal rest none).map (fun n => (n : Int))
    else (digitsVal (c :: rest) none).map (fun n => (n : Int))

/-- Decimal digit character for n % 10. -/
def digitChar10 (n : Nat) : Char := Char.ofNat (48 + n % 10)

/-- Decimal digits of n, most significant first (fueled recursion). -/
def natDigits : Nat → Nat → List Char
  | 0, _ => []
  | fuel + 1, n => if n < 10 then [digitChar10 n] else natDigits fuel (n / 10) ++ [digitChar10 (n % 10)]

/-- Decimal string of a natural number. -/
def natToStrChars (n : Nat) : List Char := natDigits (n + 1) n

/-- Decimal string of an integer, as produced by Python str() and f-strings. -/
def intToStrChars : Int → List Char
  | Int.ofNat n => natToStrChars n
  | Int.negSucc m => '-' :: natToStrChars (m + 1)

/-- Python str.split(sep) for a one-character separator. -/
def splitCh (c : Char) : List Char → List (List Char)
  | [] => [[]]
  | x :: xs =>
    match splitCh c xs with
    | [] => [[]]
    | h :: t => if x = c then [] :: h :: t else (x :: h) :: t

/-- Python str.upper() (ASCII range, which covers every registry id). -/
def pyUpper (s : String) : String := ⟨s.data.map Char.toUpper⟩

/-- Result dictionary of verify_l402_auth. -/
structure VerifyResult where
  valid : Bool
  error : Option String := none
  skill_id : Option String := none
  payment_hash : Option String := none
deriving DecidableEq, Repr

/-- An early return of verify_l402_auth carrying a specific error. -/
def verifyFail (msg : String) : VerifyResult := ⟨false, some msg, none, none⟩

/-- The broad except-branch of verify_l402_auth; msg summarizes str(e). -/
def verifyException (msg : String) : VerifyResult :=
  ⟨false, some ("Verification failed: " ++ msg), none, none⟩

/-- All characters ASCII. hmac.compare_digest raises TypeError on a
non-ASCII str argument, which the except-branch then catches. -/
def asciiChars (cs : List Char) : Bool := cs.all (fun c => c.toNat < 128)

/-- verify_l402_auth from the decoded macaroon text on: structure check,
signature recomputation, preimage hash check with paid-status fallback,
then expiry check — in the source's order. -/
def verifyMac (secret : String) (now : Int) (isPaid : String → Bool)
    (macChars preimage : List Char) : VerifyResult :=
  match splitCh ':' macChars with
  | [payment_hash, skill_id, timestamp, signature] =>
    let payload := payment_hash ++ ':' :: skill_id ++ ':' :: timestamp
    let expected_sig := hmacSha256Hex (utf8Bytes secret.data) (utf8Bytes payload)
    if ¬ asciiChars signature then verifyException "compare_digest TypeError"
    else if (⟨signature⟩ : String) ≠ expected_sig then verifyFail "Invalid macaroon signature"
    else
      match fromHexChars preimage with
      | none => verifyException "non-hexadecimal number found in fromhex() arg"
      | some preimage_bytes =>
        if sha256Hex preimage_bytes ≠ (⟨payment_hash⟩ : String) ∧
            ¬ isPaid ⟨payment_hash⟩ then verifyFail "Payment not verified"
        else
          match pyIntChars timestamp with
          | none => verifyException "invalid literal for int() with base 10"
          | some ts =>
            if 86400 < now - ts then verifyFail "Token expired"
            else ⟨true, none, some ⟨skill_id⟩, some ⟨payment_hash⟩⟩
  | _ => verifyFail "Invalid macaroon structure"

/-- verify_l402_auth from macaroon_b64 and preimage on: base64 decode and
utf-8 decode of the macaroon. -/
def verifyToken (secret : String) (now : Int) (isPaid : String → Bool)
    (tokenChars preimage : List Char) : VerifyResult :=
  match b64decodeChars tokenChars with
  | none => verifyException "Invalid base64-encoded string"
  | some macaroonBytes =>
    match utf8Decode macaroonBytes with
    | none => verifyException "utf-8 codec cannot decode"
    | some macChars => verifyMac secret now isPaid macChars preimage

/-- verify_l402_auth(auth_header). The server secret, the current time and
the LNbits paid-status backend (check_invoice_paid) are parameters. -/
def verify_l402_auth (secret : String) (now : Int) (isPaid : String → Bool)
    (auth_header : String) : VerifyResult :=
  if ("L402 ".data.isPrefixOf auth_header.data) = false then
    verifyFail "Missing L402 authorization"
  else
    match splitCh ':' (auth_header.data.drop 5) with
    | tok :: pre :: _ => verifyToken secret now isPaid tok pre
    | _ => verifyFail "Invalid L402 format"

/-- create_macaroon(payment_hash, skill_id); now models int(time.time()). -/
def create_macaroon (secret : String) (now : Int) (payment_hash skill_id : String) : String :=
  let payload := payment_hash ++ ":" ++ skill_id ++ ":" ++ (⟨intToStrChars now⟩ : String)
  let signature := hmacSha256Hex (utf8Bytes secret.data) (utf8Bytes payload.data)
  ⟨b64encodeChars (utf8Bytes (payload ++ ":" ++ signature).data)⟩

/-- A skill registry entry. -/
structure SkillMeta where
  file : String
  price : Nat
  type : String
  title : String
deriving DecidableEq, Repr

/-- SKILL_REGISTRY: pricing and metadata of the sixteen skills. -/
def SKILL_REGISTRY : List (String × SkillMeta) := [
  ("K01", ⟨"K01_what_is_stress.md", 50, "knowledge", "What is Stress?"⟩),
  ("K02", ⟨"K02_autonomic_nervous_system.md", 50, "knowledge", "The Autonomic Nervous System"⟩),
  ("K03", ⟨"K03_overstimulated_brain.md", 50, "knowledge", "The Overstimulated Brain"⟩),
  ("K04", ⟨"K04_authenticity_self_image.md", 50, "knowledge", "Authenticity and Self-Image"⟩),
  ("K05", ⟨"K05_body_awareness.md", 50, "knowledge", "Body Awareness"⟩),
  ("K06", ⟨"K06_sleep_and_recovery.md", 50, "knowledge", "Sleep and Recovery"⟩),
  ("K07", ⟨"K07_nutrition_and_stress.md", 50, "knowledge", "Nutrition and Stress"⟩),
  ("K08", ⟨"K08_gratitude_neuroplasticity.md", 50, "knowledge", "Gratitude as Neuroplasticity"⟩),
  ("I01", ⟨"I01_4_7_8_breathing.md", 75, "intervention", "4-7-8 Breathing Technique"⟩),
  ("I02", ⟨"I02_activity_monitor.md", 75, "intervention", "Activity Monitor"⟩),
  ("I03", ⟨"I03_body_scan_protocol.md", 75, "intervention", "Body Scan Protocol"⟩),
  ("I04", ⟨"I04_grounding_techniques.md", 75, "intervention", "Grounding Techniques"⟩),
  ("I05", ⟨"I05_sleep_hygiene_protocol.md", 75, "intervention", "Sleep Hygiene Protocol"⟩),
  ("I06", ⟨"I06_movement_exercise.md", 75, "intervention", "Movement and Exercise"⟩),
  ("I07", ⟨"I07_gratitude_practice.md", 75, "intervention", "Gratitude Practice"⟩),
  ("I08", ⟨"I08_vergeetmuts_technique.md", 100, "proprietary", "Forgive and Forget Hood (VergeetMuts)"⟩),
  ("C01", ⟨"C01_co_regulation_protocol.md", 100, "proprietary", "Co-Regulation Protocol (Corpus Systemics®)"⟩)]

/-- A trajectory registry entry. -/
structure TrajMeta where
  price : Nat
  title : String
  type : String
deriving DecidableEq, Repr

/-- TRAJECTORY_REGISTRY: pricing of the four trajectories. -/
def TRAJECTORY_REGISTRY : List (String × TrajMeta) := [
  ("T01", ⟨150, "Post-Concussion Syndrome — 12 Week Recovery Path", "trajectory"⟩),
  ("T02", ⟨150, "Post-COVID — 12 Week Recovery Path", "trajectory"⟩),
  ("T03", ⟨150, "Burnout — 16 Week Recovery Path", "trajectory"⟩),
  ("T04", ⟨150, "Chronic Stress / Prevention — 8 Week Path", "trajectory"⟩)]

/-- A payment_store record: {"skill_id", "paid", "created", "amount"}. -/
structure PaymentRecord where
  skill_id : String
  paid : Bool
  created : Int
  amount : Nat
deriving DecidableEq, Repr

/-- The payment_store dictionary, keyed by payment hash. -/
abbrev PaymentStore : Type := List (String × PaymentRecord)

/-- Dictionary assignment payment_store[hash] = record. -/
def storeSet (store : PaymentStore) (k : String) (v : PaymentRecord) : PaymentStore :=
  (k, v) :: List.filter (fun p => ¬ (p.1 = k)) store

/-- Dictionary read payment_store.get(hash). -/
def storeGet (store : PaymentStore) (k : String) : Option PaymentRecord :=
  List.lookup k store

/-- check_invoice_paid in MOCK_MODE: payment_store.get(hash, {}).get("paid", False). -/
def check_invoice_paid_mock (store : PaymentStore) (payment_hash : String) : Bool :=
  match storeGet store payment_hash with
  | some r => r.paid
  | none => false

/-- An invoice as returned by create_invoice. -/
structure Invoice where
  payment_hash : String
  payment_request : String
  amount : Nat
deriving DecidableEq, Repr

/-- The MOCK_MODE invoice, which additionally carries _mock_preimage. -/
structure MockInvoice where
  payment_hash : String
  payment_request : String
  amount : Nat
  mock_preimage : String
deriving DecidableEq, Repr

/-- create_invoice in MOCK_MODE; timeStr models str(time.time()) as
interpolated into the hashed seed string. -/
def create_invoice_mock (amount_sats : Nat) (memo : String) (timeStr : String) : MockInvoice :=
  let mock_hash := sha256Hex (utf8Bytes (memo ++ timeStr).data)
  let mock_preimage := sha256Hex (utf8Bytes mock_hash.data)
  ⟨mock_hash,
   "lnbc" ++ (⟨natToStrChars amount_sats⟩ : String) ++ "n1mock_" ++ (⟨mock_hash.data.take 20⟩ : String),
   amount_sats, mock_preimage⟩

/-- External actions performed by an endpoint handler. -/
inductive Effect where
  | createInvoice (amount : Nat) (memo : String)
  | savePayments
deriving DecidableEq, Repr

/-- Responses of the /api/skills/{id} endpoint, by source branch. -/
inductive SkillResponse where
  | notFound
  | forbidden
  | contentUnavailable
  | unauthorized (error : String)
  | success (skill_id : String) (payment_hash : String)
  | paymentRequired (macaroon : String) (invoice : Invoice)
  | serviceUnavailable
deriving DecidableEq, Repr

/-- HTTP status of each /api/skills/{id} response. -/
def SkillResponse.status : SkillResponse → Nat
  | .notFound => 404
  | .forbidden => 403
  | .contentUnavailable => 500
  | .unauthorized _ => 401
  | .success _ _ => 200
  | .paymentRequired _ _ => 402
  | .serviceUnavailable => 503

/-- get_skill(skill_id): the L402-gated skill endpoint. createInv and
loadContent model the external invoice backend and content loader; the
returned triple is (response, payment_store afterwards, effects). -/
def get_skill (secret : String) (now : Int) (isPaid : String → Bool)
    (createInv : Nat → String → Option Invoice)
    (loadContent : String → Option String)
    (store : PaymentStore) (skill_id_raw : String) (auth_header : String) :
    SkillResponse × PaymentStore × List Effect :=
  let skill_id := pyUpper skill_id_raw
  match List.lookup skill_id SKILL_REGISTRY with
  | none => (.notFound, store, [])
  | some meta =>
    if auth_header ≠ "" then
      let result := verify_l402_auth secret now isPaid auth_header
      if result.valid then
        if result.skill_id ≠ some skill_id then (.forbidden, store, [])
        else
          match loadContent skill_id with
          | none => (.contentUnavailable, store, [])
          | some content =>
            if content = "" then (.contentUnavailable, store, [])
            else (.success skill_id ((result.payment_hash).getD ""), store, [])
      else (.unauthorized ((result.error).getD "Invalid authorization"), store, [])
    else
      let memo := "Overcome Stress Skill: " ++ skill_id ++ " - " ++ meta.title
      match createInv meta.price memo with
      | none => (.serviceUnavailable, store, [.createInvoice meta.price memo])
      | some invoice =>
        let macaroon := create_macaroon secret now invoice.payment_hash skill_id
        (.paymentRequired macaroon invoice,
         storeSet store invoice.payment_hash ⟨skill_id, false, now, meta.price⟩,
         [.createInvoice meta.price memo, .savePayments])

/-- Responses of the /api/trajectories/{id} endpoint, by source branch. -/
inductive TrajResponse where
  | notFound
  | unauthorized (error : String)
  | success (traj_id : String)
  | paymentRequired (macaroon : String) (invoice : Invoice)
  | serviceUnavailable
deriving DecidableEq, Repr

/-- HTTP status of each /api/trajectories/{id} response. -/
def TrajResponse.status : TrajResponse → Nat
  | .notFound => 404
  | .unauthorized _ => 401
  | .success _ => 200
  | .paymentRequired _ _ => 402
  | .serviceUnavailable => 503

/-- get_trajectory(traj_id): the L402-gated trajectory endpoint. On a valid
token bound to a different trajectory the source's elif-branch answers 401
"Invalid authorization". -/
def get_trajectory (secret : String) (now : Int) (isPaid : String → Bool)
    (createInv : Nat → String → Option Invoice)
    (store : PaymentStore) (traj_id_raw : String) (auth_header : String) :
    TrajResponse × PaymentStore × List Effect :=
  let traj_id := pyUpper traj_id_raw
  match List.lookup traj_id TRAJECTORY_REGISTRY with
  | none => (.notFound, store, [])
  | some meta =>
    if auth_header ≠ "" then
      let result := verify_l402_auth secret now isPaid auth_header
      if result.valid ∧ result.skill_id = some traj_id then (.success traj_id, store, [])
      else (.unauthorized "Invalid authorization", store, [])
    else
      let memo := "Overcome Stress Trajectory: " ++ traj_id ++ " — " ++ meta.title
      match createInv meta.price memo with
      | none => (.serviceUnavailable, store, [.createInvoice meta.price memo])
      | some invoice =>
        let macaroon := create_macaroon secret now invoice.payment_hash traj_id
        (.paymentRequired macaroon invoice,
         storeSet store invoice.payment_hash ⟨traj_id, false, now, meta.price⟩,
         [.createInvoice meta.price memo, .savePayments])

/-- SHA-256 hexdigest of the empty byte string; the preimage "" proves it. -/
def phEmpty : String := "e3b0c44298fc1c149afbf4c8996fb92427ae41e4649b934ca495991b7852b855"

/-- A 64-character lowercase-hex string, the shape of a payment hash. -/
def isLowerHex64 (s : String) : Prop :=
  s.data.length = 64 ∧
  ∀ c ∈ s.data, (48 ≤ c.toNat ∧ c.toNat ≤ 57) ∨ (97 ≤ c.toNat ∧ c.toNat ≤ 102)

instance (s : String) : Decidable (isLowerHex64 s) := by
  unfold isLowerHex64; infer_instance

/-- The payload characters payment_hash:skill_id:timestamp of a minted token. -/
def macPayloadChars (now : Int) (payment_hash skill_id : String) : List Char :=
  payment_hash.data ++ ':' :: skill_id.data ++ ':' :: intToStrChars now

/-- The claim-and-signature characters of a minted token; create_macaroon
base64-encodes their UTF-8 bytes. -/
def macDataChars (secret : String) (now : Int) (payment_hash skill_id : String) : List Char :=
  macPayloadChars now payment_hash skill_id ++ ':' ::
    (hmacSha256Hex (utf8Bytes secret.data)
      (utf8Bytes (macPayloadChars now payment_hash skill_id))).data

/-- Everything the success branch of verify_l402_auth established about its
input: prefix, parse, decodes, four claim fields, matching signature,
payment proof (preimage hash or paid fallback), and freshness. -/
def WellFormedAuth (secret : String) (now : Int) (isPaid : String → Bool)
    (auth_header : String) (r : VerifyResult) : Prop :=
  ∃ tok pre rest2 mbytes mchars f1 f2 f3 f4 pb ts,
    "L402 ".data.isPrefixOf auth_header.data = true ∧
    splitCh ':' (auth_header.data.drop 5) = tok :: pre :: rest2 ∧
    b64decodeChars tok = some mbytes ∧
    utf8Decode mbytes = some mchars ∧
    splitCh ':' mchars = [f1, f2, f3, f4] ∧
    asciiChars f4 = true ∧
    (⟨f4⟩ : String) =
      hmacSha256Hex (utf8Bytes secret.data) (utf8Bytes (f1 ++ ':' :: f2 ++ ':' :: f3)) ∧
    fromHexChars pre = some pb ∧
    (sha256Hex pb = (⟨f1⟩ : String) ∨ isPaid ⟨f1⟩ = true) ∧
    pyIntChars f3 = some ts ∧
    now - ts ≤ 86400 ∧
    r = ⟨true, none, some ⟨f2⟩, some ⟨f1⟩⟩

/-- No HMAC collision at some modified token bytes: if they decode to a
four-field claim whose payload differs from the given one, the recomputed
HMAC does not equal the embedded signature field. (This excludes only the
cryptographically negligible collision event, which cannot be settled by
computation for an unevaluated modification.) -/
def noCollisionAt (secret : String) (payload : List Char) (D : List Nat) : Bool :=
  match utf8Decode D with
  | none => true
  | some cs =>
    match splitCh ':' cs with
    | [f1, f2, f3, s4] =>
      (f1 ++ ':' :: f2 ++ ':' :: f3 == payload) ||
      (hmacSha256Hex (utf8Bytes secret.data) (utf8Bytes (f1 ++ ':' :: f2 ++ ':' :: f3))
        != (⟨s4⟩ : String))
    | _ => true

/-! ### Properties of the splitting primitive -/

theorem splitCh_ne_nil (c : Char) (l : List Char) : splitCh c l ≠ [] := by
  cases l with
  | nil => simp [splitCh]
  | cons x xs =>
    simp only [splitCh]
    cases splitCh c xs with
    | nil => simp
    | cons h t => by_cases hx : x = c <;> simp [hx]

theorem splitCh_cons_eq (c : Char) (xs : List Char) :
    splitCh c (c :: xs) = [] :: splitCh c xs := by
  simp only [splitCh]
  cases h : splitCh c xs with
  | nil => exact absurd h (splitCh_ne_nil c xs)
  | cons hh tt => simp

theorem splitCh_cons_ne (c x : Char) (xs : List Char) (hx : x ≠ c)
    (hh : List Char) (tt : List (List Char)) (h : splitCh c xs = hh :: tt) :
    splitCh c (x :: xs) = (x :: hh) :: tt := by
  simp only [splitCh, h]
  simp [hx]

theorem splitCh_not_mem (c : Char) (xs : List Char) (h : c ∉ xs) : splitCh c xs = [xs] := by
  induction xs with
  | nil => rfl
  | cons x xs ih =>
    have hx : x ≠ c := fun e => h (e ▸ List.mem_cons_self x xs)
    have hxs : c ∉ xs := fun m => h (List.mem_cons_of_mem _ m)
    exact splitCh_cons_ne c x xs hx xs [] (ih hxs)

theorem splitCh_append (c : Char) (xs ys : List Char) (h : c ∉ xs) :
    splitCh c (xs ++ c :: ys) = xs :: splitCh c ys := by
  induction xs with
  | nil => simpa using splitCh_cons_eq c ys
  | cons x xs ih =>
    have hx : x ≠ c := fun e => h (e ▸ List.mem_cons_self x xs)
    have hxs : c ∉ xs := fun m => h (List.mem_cons_of_mem _ m)
    exact splitCh_cons_ne c x (xs ++ c :: ys) hx xs (splitCh c ys) (ih hxs)

theorem splitCh_length (c : Char) (l : List Char) :
    (splitCh c l).length = l.count c + 1 := by
  induction l with
  | nil => simp [splitCh]
  | cons x xs ih =>
    by_cases hx : x = c
    · subst hx
      rw [splitCh_cons_eq]
      simp only [List.length_cons, List.count_cons, ih, beq_self_eq_true, if_true]
      try omega
    · cases h : splitCh c xs with
      | nil => exact absurd h (splitCh_ne_nil c xs)
      | cons hh tt =>
        rw [splitCh_cons_ne c x xs hx hh tt h]
        have hlen := ih
        rw [h] at hlen
        simp only [List.length_cons] at hlen ⊢
        have : (x :: xs).count c = xs.count c := by
          simp [List.count_cons, hx]
        omega

theorem splitCh_three (c : Char) (f1 f2 f3 : List Char)
    (h1 : c ∉ f1) (h2 : c ∉ f2) (h3 : c ∉ f3) :
    splitCh c (f1 ++ c :: (f2 ++ c :: f3)) = [f1, f2, f3] := by
  rw [splitCh_append c f1 _ h1, splitCh_append c f2 _ h2, splitCh_not_mem c f3 h3]

theorem splitCh_four (c : Char) (f1 f2 f3 f4 : List Char)
    (h1 : c ∉ f1) (h2 : c ∉ f2) (h3 : c ∉ f3) (h4 : c ∉ f4) :
    splitCh c (f1 ++ c :: (f2 ++ c :: (f3 ++ c :: f4))) = [f1, f2, f3, f4] := by
  rw [splitCh_append c f1 _ h1, splitCh_append c f2 _ h2, splitCh_append c f3 _ h3,
    splitCh_not_mem c f4 h4]

/-! ### Decimal digits and the int() round trip -/

theorem digitVal_digitChar10 (n : Nat) (h : n < 10) : digitVal (digitChar10 n) = some n := by
  interval_cases n <;> decide

theorem digitChar10_bounds (n : Nat) :
    48 ≤ (digitChar10 n).toNat ∧ (digitChar10 n).toNat ≤ 57 := by
  have h : n % 10 < 10 := Nat.mod_lt _ (by omega)
  unfold digitChar10
  set k := n % 10 with hk
  interval_cases k <;> decide

theorem digitsVal_go (xs ys : List Char) :
    ∀ acc m, digitsVal xs acc = some m → digitsVal (xs ++ ys) acc = digitsVal ys (some m) := by
  induction xs with
  | nil =>
    intro acc m h
    simp only [digitsVal] at h
    subst h
    rfl
  | cons x xs ih =>
    intro acc m h
    cases hd : digitVal x with
    | none =>
      exfalso
      cases acc <;> simp [digitsVal, hd] at h
    | some d =>
      cases acc with
      | none =>
        simp only [digitsVal, hd, List.cons_append] at h ⊢
        exact ih _ _ h
      | some n =>
        simp only [digitsVal, hd, List.cons_append] at h ⊢
        exact ih _ _ h

theorem natDigits_val : ∀ fuel n, n < fuel → digitsVal (natDigits fuel n) none = some n := by
  intro fuel
  induction fuel with
  | zero => intro n h; omega
  | succ fuel ih =>
    intro n h
    by_cases h10 : n < 10
    · simp only [natDigits, if_pos h10]
      simp [digitsVal, digitVal_digitChar10 n h10]
    · simp only [natDigits, if_neg h10]
      have hdiv : n / 10 < fuel := by omega
      have h1 := ih (n / 10) hdiv
      rw [digitsVal_go _ _ none (n / 10) h1]
      simp [digitsVal, digitVal_digitChar10 (n % 10) (Nat.mod_lt _ (by omega))]
      omega

theorem natDigits_digits (fuel : Nat) : ∀ (n : Nat), ∀ c ∈ natDigits fuel n,
    48 ≤ c.toNat ∧ c.toNat ≤ 57 := by
  induction fuel with
  | zero => intro n c hc; simp [natDigits] at hc
  | succ fuel ih =>
    intro n c hc
    by_cases h10 : n < 10
    · simp only [natDigits, if_pos h10, List.mem_singleton] at hc
      subst hc
      exact digitChar10_bounds n
    · simp only [natDigits, if_neg h10, List.mem_append, List.mem_singleton] at hc
      rcases hc with hc | hc
      · exact ih _ c hc
      · subst hc
        exact digitChar10_bounds _

theorem intToStr_digits (i : Int) : ∀ c ∈ intToStrChars i,
    45 ≤ c.toNat ∧ c.toNat ≤ 57 := by
  cases i with
  | ofNat n =>
    intro c hc
    have := natDigits_digits (n + 1) n c hc
    omega
  | negSucc m =>
    intro c hc
    rcases List.mem_cons.1 hc with rfl | hc
    · exact ⟨by decide, by decide⟩
    · have := natDigits_digits (m + 2) (m + 1) c hc
      omega

theorem intToStr_no_colon (i : Int) : ':' ∉ intToStrChars i := by
  intro h
  exact absurd (intToStr_digits i ':' h).2 (by decide)

theorem intToStr_ascii (i : Int) : asciiChars (intToStrChars i) = true := by
  unfold asciiChars
  rw [List.all_eq_true]
  intro c hc
  have := (intToStr_digits i c hc).2
  simp only [decide_eq_true_eq]
  omega

theorem natDigits_ne_nil (fuel n : Nat) (h : 0 < fuel) : natDigits fuel n ≠ [] := by
  cases fuel with
  | zero => omega
  | succ fuel => by_cases h10 : n < 10 <;> simp [natDigits, h10]

theorem pyInt_natToStr (n : Nat) : pyIntChars (natToStrChars n) = some (n : Int) := by
  have hval := natDigits_val (n + 1) n (by omega)
  unfold natToStrChars
  cases hd : natDigits (n + 1) n with
  | nil => exact absurd hd (natDigits_ne_nil _ _ (by omega))
  | cons c rest =>
    have hcmem : c ∈ natDigits (n + 1) n := by rw [hd]; exact List.mem_cons_self c rest
    have hb := natDigits_digits (n + 1) n c hcmem
    have hc1 : ¬ c = '-' := by intro e; subst e; exact absurd hb (by decide)
    have hc2 : ¬ c = '+' := by intro e; subst e; exact absurd hb (by decide)
    rw [hd] at hval
    simp [pyIntChars, hc1, hc2, hval]

theorem pyInt_intToStr (i : Int) : pyIntChars (intToStrChars i) = some i := by
  cases i with
  | ofNat n => exact pyInt_natToStr n
  | negSucc m =>
    have hval := natDigits_val (m + 2) (m + 1) (by omega)
    have h1 : pyIntChars (intToStrChars (Int.negSucc m)) =
        (digitsVal (natDigits (m + 2) (m + 1)) none).map (fun n => -(n : Int)) := by
      simp [intToStrChars, pyIntChars, natToStrChars]
    rw [h1, hval]
    have h2 : -(((m + 1 : Nat) : Int)) = Int.negSucc m := by
      rw [Int.negSucc_eq]
      push_cast
      ring
    simp [h2]
    rw [Int.negSucc_eq]
    ring

/-! ### Hexadecimal output characters -/

theorem hexDigitChar_bounds (n : Nat) :
    (48 ≤ (hexDigitChar n).toNat ∧ (hexDigitChar n).toNat ≤ 57) ∨
    (97 ≤ (hexDigitChar n).toNat ∧ (hexDigitChar n).toNat ≤ 102) := by
  have h : n % 16 < 16 := Nat.mod_lt _ (by omega)
  unfold hexDigitChar
  set k := n % 16 with hk
  interval_cases k <;> decide

theorem hexOfBytes_chars (bs : List Nat) : ∀ c ∈ (hexOfBytes bs).data,
    (48 ≤ c.toNat ∧ c.toNat ≤ 57) ∨ (97 ≤ c.toNat ∧ c.toNat ≤ 102) := by
  intro c hc
  have hd : (hexOfBytes bs).data = bs.flatMap byteHexChars := rfl
  rw [hd] at hc
  rcases List.mem_flatMap.1 hc with ⟨b, _, hcb⟩
  unfold byteHexChars at hcb
  rcases List.mem_cons.1 hcb with rfl | hcb
  · exact hexDigitChar_bounds _
  · rcases List.mem_cons.1 hcb with rfl | hcb
    · exact hexDigitChar_bounds _
    · simp at hcb

theorem hexStr_no_colon (bs : List Nat) : ':' ∉ (hexOfBytes bs).data := by
  intro h
  rcases hexOfBytes_chars bs ':' h with ⟨_, h2⟩ | ⟨h1, _⟩
  · exact absurd h2 (by decide)
  · exact absurd h1 (by decide)

theorem hexStr_ascii (bs : List Nat) : asciiChars (hexOfBytes bs).data = true := by
  unfold asciiChars
  rw [List.all_eq_true]
  intro c hc
  rcases hexOfBytes_chars bs c hc with ⟨_, h2⟩ | ⟨_, h2⟩ <;>
    simp only [decide_eq_true_eq] <;> omega

theorem lowerHex64_no_colon {s : String} (h : isLowerHex64 s) : ':' ∉ s.data := by
  intro hm
  rcases h.2 ':' hm with ⟨_, h2⟩ | ⟨h1, _⟩
  · exact absurd h2 (by decide)
  · exact absurd h1 (by decide)

theorem lowerHex64_ascii {s : String} (h : isLowerHex64 s) : asciiChars s.data = true := by
  unfold asciiChars
  rw [List.all_eq_true]
  intro c hc
  rcases h.2 c hc with ⟨_, h2⟩ | ⟨_, h2⟩ <;> simp only [decide_eq_true_eq] <;> omega

/-! ### UTF-8 on ASCII data -/

theorem utf8Bytes_ascii (cs : List Char) (h : asciiChars cs = true) :
    utf8Bytes cs = cs.map Char.toNat := by
  induction cs with
  | nil => rfl
  | cons c cs ih =>
    simp only [asciiChars, List.all_cons, Bool.and_eq_true, decide_eq_true_eq] at h
    have hc : utf8EncodeChar c = [c.toNat] := by
      unfold utf8EncodeChar
      rw [if_pos h.1]
    have ih2 := ih h.2
    simp only [utf8Bytes, List.flatMap_cons] at ih2 ⊢
    rw [hc, ih2]
    rfl

theorem utf8Decode_ascii (bs : List Nat) (h : ∀ b ∈ bs, b < 128) :
    utf8Decode bs = some (bs.map Char.ofNat) := by
  induction bs with
  | nil => rfl
  | cons b rest ih =>
    have hb : b < 128 := h b (List.mem_cons_self _ _)
    have hrest := ih (fun x hx => h x (List.mem_cons_of_mem _ hx))
    unfold utf8Decode
    rw [if_pos hb, hrest]
    rfl

theorem utf8_roundtrip (cs : List Char) (h : asciiChars cs = true) :
    utf8Decode (utf8Bytes cs) = some cs := by
  rw [utf8Bytes_ascii cs h, utf8Decode_ascii]
  · congr 1
    rw [List.map_map]
    simp [Function.comp_def, Char.ofNat_toNat]
  · intro b hb
    rcases List.mem_map.1 hb with ⟨c, hc, rfl⟩
    simp only [asciiChars, List.all_eq_true, decide_eq_true_eq] at h
    exact h c hc

theorem utf8Decode_highbyte (pre suf : List Nat) (b : Nat)
    (hpre : ∀ x ∈ pre, x < 128) (hsuf : ∀ x ∈ suf, x < 128) (hb : 128 ≤ b) :
    utf8Decode (pre ++ b :: suf) = none := by
  induction pre with
  | nil =>
    show utf8Decode (b :: suf) = none
    unfold utf8Decode
    rw [if_neg (by omega)]
    by_cases h194 : b < 194
    · rw [if_pos h194]
    · rw [if_neg h194]
      cases suf with
      | nil => rfl
      | cons c1 rest1 =>
        have hc1 : c1 < 128 := hsuf c1 (List.mem_cons_self _ _)
        simp only []
        rw [if_pos (Or.inl hc1)]
  | cons x pre ih =>
    have hx : x < 128 := hpre x (List.mem_cons_self _ _)
    have ih2 := ih (fun y hy => hpre y (List.mem_cons_of_mem _ hy))
    show utf8Decode (x :: (pre ++ b :: suf)) = none
    unfold utf8Decode
    rw [if_pos hx, ih2]
    rfl

/-! ### base64url encode and decode -/

theorem b64Val_b64Char : ∀ n, n < 64 → b64Val (b64Char n) = some n := by decide

theorem b64Char_ne_eq : ∀ n, n < 64 → b64Char n ≠ '=' := by decide

theorem b64Char_ne_colon_lt : ∀ n, n < 64 → b64Char n ≠ ':' := by decide

theorem b64Char_ne_colon (n : Nat) : b64Char n ≠ ':' := by
  by_cases h : n < 64
  · exact b64Char_ne_colon_lt n h
  · unfold b64Char
    rw [List.getD_eq_default]
    · decide
    · have hlen : b64Alpha.length = 64 := by decide
      omega

theorem b64encode_no_colon (bs : List Nat) : ':' ∉ b64encodeChars bs := by
  intro hmem
  induction bs using b64encodeChars.induct with
  | case1 => simp [b64encodeChars] at hmem
  | case2 b1 =>
    simp only [b64encodeChars, List.mem_cons, List.not_mem_nil, or_false] at hmem
    rcases hmem with h | h | h | h
    · exact b64Char_ne_colon _ h.symm
    · exact b64Char_ne_colon _ h.symm
    · exact absurd h (by decide)
    · exact absurd h (by decide)
  | case3 b1 b2 =>
    simp only [b64encodeChars, List.mem_cons, List.not_mem_nil, or_false] at hmem
    rcases hmem with h | h | h | h
    · exact b64Char_ne_colon _ h.symm
    · exact b64Char_ne_colon _ h.symm
    · exact b64Char_ne_colon _ h.symm
    · exact absurd h (by decide)
  | case4 b1 b2 b3 rest ih =>
    simp only [b64encodeChars, List.mem_cons] at hmem
    rcases hmem with h | h | h | h | h
    · exact b64Char_ne_colon _ h.symm
    · exact b64Char_ne_colon _ h.symm
    · exact b64Char_ne_colon _ h.symm
    · exact b64Char_ne_colon _ h.symm
    · exact ih h

theorem b64_roundtrip (bs : List Nat) (h : ∀ b ∈ bs, b < 256) :
    b64decodeChars (b64encodeChars bs) = some bs := by
  induction bs using b64encodeChars.induct with
  | case1 => rfl
  | case2 b1 =>
    have hb1 : b1 < 256 := h b1 (by simp)
    have e1 : b64Val (b64Char (b1 / 4)) = some (b1 / 4) := b64Val_b64Char _ (by omega)
    have e2 : b64Val (b64Char (b1 % 4 * 16)) = some (b1 % 4 * 16) := b64Val_b64Char _ (by omega)
    unfold b64encodeChars b64decodeChars
    rw [e1, e2]
    simp only []
    rw [if_pos (by decide)]
    have q1 : b1 / 4 * 4 + b1 % 4 * 16 / 16 = b1 := by omega
    rw [q1]
  | case3 b1 b2 =>
    have hb1 : b1 < 256 := h b1 (by simp)
    have hb2 : b2 < 256 := h b2 (by simp)
    have e1 : b64Val (b64Char (b1 / 4)) = some (b1 / 4) := b64Val_b64Char _ (by omega)
    have e2 : b64Val (b64Char (b1 % 4 * 16 + b2 / 16)) = some (b1 % 4 * 16 + b2 / 16) :=
      b64Val_b64Char _ (by omega)
    have e3 : b64Val (b64Char (b2 % 16 * 4)) = some (b2 % 16 * 4) := b64Val_b64Char _ (by omega)
    unfold b64encodeChars b64decodeChars
    rw [e1, e2]
    simp only []
    rw [if_neg (fun hcon => b64Char_ne_eq (b2 % 16 * 4) (by omega) hcon.1)]
    rw [if_pos (by decide), e3]
    simp only []
    have q1 : b1 / 4 * 4 + (b1 % 4 * 16 + b2 / 16) / 16 = b1 := by omega
    have q2 : (b1 % 4 * 16 + b2 / 16) % 16 * 16 + b2 % 16 * 4 / 4 = b2 := by omega
    rw [q1, q2]
  | case4 b1 b2 b3 rest ih =>
    have hb1 : b1 < 256 := h b1 (by simp)
    have hb2 : b2 < 256 := h b2 (by simp)
    have hb3 : b3 < 256 := h b3 (by simp)
    have hrest : ∀ b ∈ rest, b < 256 := fun b hb => h b (by simp [hb])
    have ihr := ih hrest
    have e1 : b64Val (b64Char (b1 / 4)) = some (b1 / 4) := b64Val_b64Char _ (by omega)
    have e2 : b64Val (b64Char (b1 % 4 * 16 + b2 / 16)) = some (b1 % 4 * 16 + b2 / 16) :=
      b64Val_b64Char _ (by omega)
    have e3 : b64Val (b64Char (b2 % 16 * 4 + b3 / 64)) = some (b2 % 16 * 4 + b3 / 64) :=
      b64Val_b64Char _ (by omega)
    have e4 : b64Val (b64Char (b3 % 64)) = some (b3 % 64) := b64Val_b64Char _ (by omega)
    unfold b64encodeChars b64decodeChars
    rw [e1, e2]
    simp only []
    rw [if_neg (fun hcon => b64Char_ne_eq (b2 % 16 * 4 + b3 / 64) (by omega) hcon.1)]
    rw [if_neg (fun hcon => b64Char_ne_eq (b3 % 64) (by omega) hcon.1)]
    rw [e3, e4, ihr]
    simp only [Option.map_some']
    have q1 : b1 / 4 * 4 + (b1 % 4 * 16 + b2 / 16) / 16 = b1 := by omega
    have q2 : (b1 % 4 * 16 + b2 / 16) % 16 * 16 + (b2 % 16 * 4 + b3 / 64) / 4 = b2 := by omega
    have q3 : (b2 % 16 * 4 + b3 / 64) % 4 * 64 + b3 % 64 = b3 := by omega
    rw [q1, q2, q3]

/-! ### bytes.fromhex facts -/

theorem fromHex_no_colon (cs : List Char) (bs : List Nat) (h : fromHexChars cs = some bs) :
    ':' ∉ cs := by
  induction cs using fromHexChars.induct generalizing bs with
  | case1 => simp
  | case2 rest2 ih =>
    unfold fromHexChars at h
    rw [if_pos rfl] at h
    intro hm
    rcases List.mem_cons.1 hm with hc | hm
    · exact absurd hc (by decide)
    · exact ih _ h hm
  | case3 c1 hsp =>
    exfalso
    unfold fromHexChars at h
    rw [if_neg hsp] at h
    exact Option.noConfusion h
  | case4 c1 hsp c2 rest2 h1 h2 e2 e1 ih =>
    intro hm
    unfold fromHexChars at h
    rw [if_neg hsp] at h
    simp only [] at h
    rw [e1, e2] at h
    simp only [] at h
    rcases Option.map_eq_some'.1 h with ⟨bs2, hbs2, _⟩
    rcases List.mem_cons.1 hm with hc | hm
    · rw [← hc, show hexVal ':' = none from by decide] at e1
      exact Option.noConfusion e1
    · rcases List.mem_cons.1 hm with hc | hm
      · rw [← hc, show hexVal ':' = none from by decide] at e2
        exact Option.noConfusion e2
      · exact ih _ hbs2 hm
  | case5 c1 hsp c2 rest2 hnone =>
    exfalso
    unfold fromHexChars at h
    rw [if_neg hsp] at h
    simp only [] at h
    exact Option.noConfusion h

/-! ### String plumbing -/

theorem mk_data (l : List Char) : (⟨l⟩ : String).data = l := rfl

theorem colon_data : (":" : String).data = [':'] := rfl

theorem prefix_refl_append (l ys : List Char) : l.isPrefixOf (l ++ ys) = true := by
  induction l with
  | nil => cases ys <;> rfl
  | cons x xs ih =>
    show (x == x && xs.isPrefixOf (xs ++ ys)) = true
    simp [ih]

theorem create_macaroon_data (secret : String) (now : Int) (ph rid : String) :
    (create_macaroon secret now ph rid).data =
      b64encodeChars (utf8Bytes (macDataChars secret now ph rid)) := by
  unfold create_macaroon macDataChars macPayloadChars
  simp only [mk_data, String.data_append, colon_data]
  congr 2
  simp [List.append_assoc]

/-! ### Reducing verify_l402_auth on structured headers -/

theorem verify_header (secret : String) (now : Int) (isPaid : String → Bool)
    (tokChars : List Char) (rest : String) (htok : ':' ∉ tokChars) :
    verify_l402_auth secret now isPaid ("L402 " ++ (⟨tokChars⟩ : String) ++ ":" ++ rest) =
      verifyToken secret now isPaid tokChars ((splitCh ':' rest.data).headD []) := by
  have hdata : ("L402 " ++ (⟨tokChars⟩ : String) ++ ":" ++ rest).data =
      "L402 ".data ++ (tokChars ++ ':' :: rest.data) := by
    simp [String.data_append, mk_data, colon_data, List.append_assoc]
  unfold verify_l402_auth
  rw [hdata, prefix_refl_append]
  rw [if_neg (by simp)]
  rw [show ("L402 ".data ++ (tokChars ++ ':' :: rest.data)).drop 5 =
      tokChars ++ ':' :: rest.data from List.drop_left ("L402 ".data) _]
  rw [splitCh_append ':' tokChars rest.data htok]
  cases hs : splitCh ':' rest.data with
  | nil => exact absurd hs (splitCh_ne_nil _ _)
  | cons p ps => rfl

theorem verifyToken_bytes (secret : String) (now : Int) (isPaid : String → Bool)
    (D : List Nat) (pre : List Char) (hD : ∀ b ∈ D, b < 256) :
    verifyToken secret now isPaid (b64encodeChars D) pre =
      match utf8Decode D with
      | none => verifyException "utf-8 codec cannot decode"
      | some macChars => verifyMac secret now isPaid macChars pre := by
  unfold verifyToken
  rw [b64_roundtrip D hD]

/-! ### ASCII bookkeeping -/

theorem string_eta (s : String) : (⟨s.data⟩ : String) = s := rfl

theorem asciiChars_iff (cs : List Char) : asciiChars cs = true ↔ ∀ c ∈ cs, c.toNat < 128 := by
  simp [asciiChars, List.all_eq_true]

theorem asciiChars_append (xs ys : List Char) :
    asciiChars (xs ++ ys) = (asciiChars xs && asciiChars ys) := by
  simp [asciiChars, List.all_append]

theorem asciiChars_colon_cons (xs : List Char) : asciiChars (':' :: xs) = asciiChars xs := by
  show (decide (':'.toNat < 128) && asciiChars xs) = asciiChars xs
  rw [show (decide (':'.toNat < 128)) = true from rfl, Bool.true_and]

theorem macDataChars_ascii (secret : String) (tMint : Int) (ph rid : String)
    (hpha : asciiChars ph.data = true) (hrida : asciiChars rid.data = true) :
    asciiChars (macDataChars secret tMint ph rid) = true := by
  unfold macDataChars macPayloadChars
  simp [asciiChars_append, asciiChars_colon_cons, hpha, hrida, intToStr_ascii,
    hexStr_ascii, hmacSha256Hex]

/-! ### verify_l402_auth on a freshly minted token -/

theorem verify_minted (secret : String) (tMint tNow : Int) (isPaid : String → Bool)
    (ph rid preimage : String)
    (hph : ':' ∉ ph.data) (hpha : asciiChars ph.data = true)
    (hrid : ':' ∉ rid.data) (hrida : asciiChars rid.data = true)
    (hpre : ':' ∉ preimage.data) :
    verify_l402_auth secret tNow isPaid
        ("L402 " ++ create_macaroon secret tMint ph rid ++ ":" ++ preimage) =
      match fromHexChars preimage.data with
      | none => verifyException "non-hexadecimal number found in fromhex() arg"
      | some pb =>
        if sha256Hex pb ≠ ph ∧ ¬ isPaid ph then verifyFail "Payment not verified"
        else if 86400 < tNow - tMint then verifyFail "Token expired"
        else ⟨true, none, some rid, some ph⟩ := by
  have hts_nc : ':' ∉ intToStrChars tMint := intToStr_no_colon tMint
  have hsig_nc : ':' ∉ (hmacSha256Hex (utf8Bytes secret.data)
      (utf8Bytes (macPayloadChars tMint ph rid))).data := hexStr_no_colon _
  have hsig_a : asciiChars (hmacSha256Hex (utf8Bytes secret.data)
      (utf8Bytes (macPayloadChars tMint ph rid))).data = true := hexStr_ascii _
  have hdata_a : asciiChars (macDataChars secret tMint ph rid) = true :=
    macDataChars_ascii secret tMint ph rid hpha hrida
  have hD : ∀ b ∈ utf8Bytes (macDataChars secret tMint ph rid), b < 256 := by
    rw [utf8Bytes_ascii _ hdata_a]
    intro b hb
    rcases List.mem_map.1 hb with ⟨c, hc, rfl⟩
    have := (asciiChars_iff _).1 hdata_a c hc
    omega
  have hcm : create_macaroon secret tMint ph rid =
      (⟨b64encodeChars (utf8Bytes (macDataChars secret tMint ph rid))⟩ : String) :=
    String.ext (by rw [create_macaroon_data, mk_data])
  rw [hcm, verify_header secret tNow isPaid _ preimage (b64encode_no_colon _),
    verifyToken_bytes secret tNow isPaid _ _ hD, utf8_roundtrip _ hdata_a]
  simp only []
  rw [splitCh_not_mem ':' preimage.data hpre]
  simp only [List.headD_cons]
  unfold verifyMac
  have hsplit : splitCh ':' (macDataChars secret tMint ph rid) =
      [ph.data, rid.data, intToStrChars tMint,
        (hmacSha256Hex (utf8Bytes secret.data) (utf8Bytes (macPayloadChars tMint ph rid))).data] := by
    unfold macDataChars macPayloadChars
    have h4 := splitCh_four ':' ph.data rid.data (intToStrChars tMint)
      (hmacSha256Hex (utf8Bytes secret.data) (utf8Bytes (macPayloadChars tMint ph rid))).data
      hph hrid hts_nc hsig_nc
    simpa [List.append_assoc, macPayloadChars] using h4
  rw [hsplit]
  simp only []
  rw [if_neg (by simp [hsig_a])]
  rw [if_neg (fun hne => hne (by exact string_eta _))]
  cases hfh : fromHexChars preimage.data with
  | none => rfl
  | some pb =>
    simp only []
    rw [string_eta, pyInt_intToStr]

/-! ### Registry key facts -/

theorem skill_registry_key_fields (rid : String)
    (h : (List.lookup rid SKILL_REGISTRY).isSome = true) :
    ':' ∉ rid.data ∧ asciiChars rid.data = true := by
  rcases List.lookup_isSome_iff.1 h with ⟨p, hp, hbeq⟩
  have hr : rid = p.1 := by simpa using hbeq
  subst hr
  fin_cases hp <;> decide

/-! ### Claim C1 -/

/-- C1: Round trip — for every payment_hash of 64 lowercase hex characters,
every resource_id present in the skill registry, and every preimage whose
SHA-256 hex digest equals payment_hash, verify_l402_auth applied to
"L402 " ++ create_macaroon(payment_hash, resource_id) ++ ":" ++ preimage at
any time within the 24-hour TTL of minting returns valid=true with skill_id
equal to the same resource_id (and echoes payment_hash). -/
theorem c1_round_trip (secret : String) (tMint tNow : Int) (isPaid : String → Bool)
    (ph rid preimage : String) (pb : List Nat)
    (hph : isLowerHex64 ph)
    (hrid : (List.lookup rid SKILL_REGISTRY).isSome = true)
    (hhex : fromHexChars preimage.data = some pb)
    (hsha : sha256Hex pb = ph)
    (httl : tNow - tMint ≤ 86400) :
    verify_l402_auth secret tNow isPaid
        ("L402 " ++ create_macaroon secret tMint ph rid ++ ":" ++ preimage) =
      ⟨true, none, some rid, some ph⟩ := by
  obtain ⟨hrnc, hra⟩ := skill_registry_key_fields rid hrid
  rw [verify_minted secret tMint tNow isPaid ph rid preimage
    (lowerHex64_no_colon hph) (lowerHex64_ascii hph) hrnc hra
    (fromHex_no_colon _ _ hhex), hhex]
  simp only []
  rw [if_neg (fun hcon => hcon.1 hsha), if_neg (by omega)]

/-- Witness for C1: secret "s", payment hash sha256("" ), resource "K01",
preimage "", minted at time 0, verified at time 86400 (the TTL boundary). -/
theorem c1_round_trip_witness :
    isLowerHex64 phEmpty ∧
    (List.lookup "K01" SKILL_REGISTRY).isSome = true ∧
    fromHexChars ("" : String).data = some [] ∧
    sha256Hex [] = phEmpty ∧
    (86400 : Int) - 0 ≤ 86400 ∧
    verify_l402_auth "s" 86400 (fun _ => false)
        ("L402 " ++ create_macaroon "s" 0 phEmpty "K01" ++ ":" ++ "") =
      ⟨true, none, some "K01", some phEmpty⟩ :=
  ⟨by decide, by decide, rfl, by decide, by decide,
   c1_round_trip "s" 0 86400 (fun _ => false) phEmpty "K01" "" []
     (by decide) (by decide) rfl (by decide) (by decide)⟩

/-! ### Claim C3 -/

/-- C3 counterexample: a correctly signed token minted at time 0 and verified
at time 100000 (beyond the 24-hour TTL), presented with the non-matching hex
preimage "00" and an unpaid backend, fails with "Payment not verified" — not
with "Token expired" — so the expiry check is not performed before the
payment-proof check. -/
theorem c3_counterexample :
    verify_l402_auth "s" 100000 (fun _ => false)
        ("L402 " ++ create_macaroon "s" 0 phEmpty "K01" ++ ":" ++ "00") =
      verifyFail "Payment not verified" ∧
    (86400 : Int) < 100000 - 0 ∧
    verifyFail "Payment not verified" ≠ verifyFail "Token expired" := by
  refine ⟨?_, by decide, by decide⟩
  rw [verify_minted "s" 0 100000 (fun _ => false) phEmpty "K01" "00"
    (by decide) (by decide) (by decide) (by decide) (by decide)]
  rw [show fromHexChars ("00" : String).data = some [0] from rfl]
  simp only []
  rw [if_pos ⟨by decide, by simp⟩]

/-- C3 amended: verify_l402_auth checks the payment proof before expiry. For a
correctly signed token whose timestamp is older than the TTL, the result is
TokenExpired exactly when the payment proof succeeds (the preimage hashes to
payment_hash, or the backend confirms payment); when neither proof holds the
result is PaymentNotVerified instead. -/
theorem c3_payment_checked_before_expiry (secret : String) (tMint tNow : Int)
    (isPaid : String → Bool) (ph rid preimage : String) (pb : List Nat)
    (hph : ':' ∉ ph.data) (hpha : asciiChars ph.data = true)
    (hrid : ':' ∉ rid.data) (hrida : asciiChars rid.data = true)
    (hhex : fromHexChars preimage.data = some pb)
    (hexp : 86400 < tNow - tMint) :
    ((sha256Hex pb = ph ∨ isPaid ph = true) →
      verify_l402_auth secret tNow isPaid
          ("L402 " ++ create_macaroon secret tMint ph rid ++ ":" ++ preimage) =
        verifyFail "Token expired") ∧
    (sha256Hex pb ≠ ph → isPaid ph = false →
      verify_l402_auth secret tNow isPaid
          ("L402 " ++ create_macaroon secret tMint ph rid ++ ":" ++ preimage) =
        verifyFail "Payment not verified") := by
  constructor
  · intro hproof
    rw [verify_minted secret tMint tNow isPaid ph rid preimage hph hpha hrid hrida
      (fromHex_no_colon _ _ hhex), hhex]
    simp only []
    have hncon : ¬ (sha256Hex pb ≠ ph ∧ ¬ isPaid ph) := by
      rcases hproof with hsha | hpaid
      · exact fun hcon => hcon.1 hsha
      · exact fun hcon => hcon.2 hpaid
    rw [if_neg hncon, if_pos hexp]
  · intro hne hpaid
    rw [verify_minted secret tMint tNow isPaid ph rid preimage hph hpha hrid hrida
      (fromHex_no_colon _ _ hhex), hhex]
    simp only []
    rw [if_pos ⟨hne, by simp [hpaid]⟩]

/-- Witness for the amended C3: with a matching preimage, the same expired
token does fail with "Token expired". -/
theorem c3_payment_checked_before_expiry_witness :
    (':' ∉ phEmpty.data) ∧ asciiChars phEmpty.data = true ∧
    (':' ∉ ("K01" : String).data) ∧ asciiChars ("K01" : String).data = true ∧
    fromHexChars ("" : String).data = some [] ∧
    (86400 : Int) < 100000 - 0 ∧
    verify_l402_auth "s" 100000 (fun _ => false)
        ("L402 " ++ create_macaroon "s" 0 phEmpty "K01" ++ ":" ++ "") =
      verifyFail "Token expired" :=
  ⟨by decide, by decide, by decide, by decide, rfl, by decide,
   (c3_payment_checked_before_expiry "s" 0 100000 (fun _ => false) phEmpty "K01" "" []
     (by decide) (by decide) (by decide) (by decide) rfl (by decide)).1
     (Or.inl (by decide))⟩

/-! ### Claim C7 -/

/-- C7: Expiry boundary — with TTL 86400 s, a correctly signed token minted at
now - 86401 fails with TokenExpired (its payment proof being valid), while one
minted at now - 86399 with a preimage hashing to its payment_hash verifies
successfully; the validity condition is now - issued_at ≤ 86400. -/
theorem c7_expiry_boundary (secret : String) (tNow : Int) (isPaid : String → Bool)
    (ph rid preimage : String) (pb : List Nat)
    (hph : ':' ∉ ph.data) (hpha : asciiChars ph.data = true)
    (hrid : ':' ∉ rid.data) (hrida : asciiChars rid.data = true)
    (hhex : fromHexChars preimage.data = some pb)
    (hsha : sha256Hex pb = ph) :
    verify_l402_auth secret tNow isPaid
        ("L402 " ++ create_macaroon secret (tNow - 86400 - 1) ph rid ++ ":" ++ preimage) =
      verifyFail "Token expired" ∧
    verify_l402_auth secret tNow isPaid
        ("L402 " ++ create_macaroon secret (tNow - 86400 + 1) ph rid ++ ":" ++ preimage) =
      ⟨true, none, some rid, some ph⟩ := by
  constructor
  · rw [verify_minted secret (tNow - 86400 - 1) tNow isPaid ph rid preimage hph hpha hrid
      hrida (fromHex_no_colon _ _ hhex), hhex]
    simp only []
    rw [if_neg (fun hcon => hcon.1 hsha), if_pos (by omega)]
  · rw [verify_minted secret (tNow - 86400 + 1) tNow isPaid ph rid preimage hph hpha hrid
      hrida (fromHex_no_colon _ _ hhex), hhex]
    simp only []
    rw [if_neg (fun hcon => hcon.1 hsha), if_neg (by omega)]

/-- Witness for C7 at now = 100000 with preimage "" and hash sha256(""). -/
theorem c7_expiry_boundary_witness :
    (':' ∉ phEmpty.data) ∧ asciiChars phEmpty.data = true ∧
    (':' ∉ ("K01" : String).data) ∧ asciiChars ("K01" : String).data = true ∧
    fromHexChars ("" : String).data = some [] ∧ sha256Hex [] = phEmpty ∧
    (verify_l402_auth "s" 100000 (fun _ => false)
        ("L402 " ++ create_macaroon "s" (100000 - 86400 - 1) phEmpty "K01" ++ ":" ++ "") =
      verifyFail "Token expired" ∧
    verify_l402_auth "s" 100000 (fun _ => false)
        ("L402 " ++ create_macaroon "s" (100000 - 86400 + 1) phEmpty "K01" ++ ":" ++ "") =
      ⟨true, none, some "K01", some phEmpty⟩) :=
  ⟨by decide, by decide, by decide, by decide, rfl, by decide,
   c7_expiry_boundary "s" 100000 (fun _ => false) phEmpty "K01" "" []
     (by decide) (by decide) (by decide) (by decide) rfl (by decide)⟩

/-! ### Claim C10 -/

/-- C10: for a well-formed, correctly signed token whose preimage part is not
valid hexadecimal, verify_l402_auth answers through the generic
"Verification failed" exception path for every backend behaviour — the paid
fallback is never consulted. The fallback matters exactly for valid-hex
preimages that do not hash to payment_hash: there an unpaid backend yields
PaymentNotVerified while a paying backend lets the (unexpired) token verify. -/
theorem c10_nonhex_preimage_no_fallback (secret : String) (tMint tNow : Int)
    (ph rid preimage : String)
    (hph : ':' ∉ ph.data) (hpha : asciiChars ph.data = true)
    (hrid : ':' ∉ rid.data) (hrida : asciiChars rid.data = true)
    (hpre_nc : ':' ∉ preimage.data)
    (hnonhex : fromHexChars preimage.data = none) :
    (∀ isPaid : String → Bool,
      verify_l402_auth secret tNow isPaid
          ("L402 " ++ create_macaroon secret tMint ph rid ++ ":" ++ preimage) =
        verifyException "non-hexadecimal number found in fromhex() arg") ∧
    (∀ (preimage2 : String) (pb2 : List Nat),
      fromHexChars preimage2.data = some pb2 → sha256Hex pb2 ≠ ph →
      tNow - tMint ≤ 86400 →
      verify_l402_auth secret tNow (fun _ => false)
          ("L402 " ++ create_macaroon secret tMint ph rid ++ ":" ++ preimage2) =
        verifyFail "Payment not verified" ∧
      verify_l402_auth secret tNow (fun _ => true)
          ("L402 " ++ create_macaroon secret tMint ph rid ++ ":" ++ preimage2) =
        ⟨true, none, some rid, some ph⟩) := by
  constructor
  · intro isPaid
    rw [verify_minted secret tMint tNow isPaid ph rid preimage hph hpha hrid hrida hpre_nc,
      hnonhex]
  · intro preimage2 pb2 hhex2 hne2 httl
    constructor
    · rw [verify_minted secret tMint tNow (fun _ => false) ph rid preimage2 hph hpha hrid
        hrida (fromHex_no_colon _ _ hhex2), hhex2]
      simp only []
      rw [if_pos ⟨hne2, by simp⟩]
    · rw [verify_minted secret tMint tNow (fun _ => true) ph rid preimage2 hph hpha hrid
        hrida (fromHex_no_colon _ _ hhex2), hhex2]
      simp only []
      rw [if_neg (fun hcon => hcon.2 (by simp)), if_neg (by omega)]

/-- Witness for C10: preimage "zz" is rejected through the exception path even
with a backend that reports everything paid; preimage "00" reaches the
fallback. -/
theorem c10_nonhex_preimage_no_fallback_witness :
    (':' ∉ phEmpty.data) ∧ asciiChars phEmpty.data = true ∧
    (':' ∉ ("K01" : String).data) ∧ asciiChars ("K01" : String).data = true ∧
    (':' ∉ ("zz" : String).data) ∧ fromHexChars ("zz" : String).data = none ∧
    verify_l402_auth "s" 100 (fun _ => true)
        ("L402 " ++ create_macaroon "s" 0 phEmpty "K01" ++ ":" ++ "zz") =
      verifyException "non-hexadecimal number found in fromhex() arg" ∧
    verify_l402_auth "s" 100 (fun _ => false)
        ("L402 " ++ create_macaroon "s" 0 phEmpty "K01" ++ ":" ++ "00") =
      verifyFail "Payment not verified" :=
  ⟨by decide, by decide, by decide, by decide, by decide, rfl,
   (c10_nonhex_preimage_no_fallback "s" 0 100 phEmpty "K01" "zz"
     (by decide) (by decide) (by decide) (by decide) (by decide) rfl).1 (fun _ => true),
   ((c10_nonhex_preimage_no_fallback "s" 0 100 phEmpty "K01" "zz"
     (by decide) (by decide) (by decide) (by decide) (by decide) rfl).2 "00" [0] rfl
     (by decide) (by decide)).1⟩

/-! ### Concrete valid tokens for endpoint scenarios -/

theorem l402_header_ne_empty (t p : String) : ("L402 " ++ t ++ ":" ++ p) ≠ "" := by
  intro he
  have hd : ("L402 " ++ t ++ ":" ++ p).data = [] := by rw [he]
  simp [String.data_append] at hd

theorem verify_K01_token :
    verify_l402_auth "s" 100 (fun _ => false)
        ("L402 " ++ create_macaroon "s" 0 phEmpty "K01" ++ ":" ++ "") =
      ⟨true, none, some "K01", some phEmpty⟩ := by
  rw [verify_minted "s" 0 100 (fun _ => false) phEmpty "K01" ""
    (by decide) (by decide) (by decide) (by decide) (by decide)]
  rw [show fromHexChars ("" : String).data = some [] from rfl]
  simp only []
  rw [if_neg (fun hcon => hcon.1 (by decide)), if_neg (by decide)]

theorem verify_T01_token :
    verify_l402_auth "s" 100 (fun _ => false)
        ("L402 " ++ create_macaroon "s" 0 phEmpty "T01" ++ ":" ++ "") =
      ⟨true, none, some "T01", some phEmpty⟩ := by
  rw [verify_minted "s" 0 100 (fun _ => false) phEmpty "T01" ""
    (by decide) (by decide) (by decide) (by decide) (by decide)]
  rw [show fromHexChars ("" : String).data = some [] from rfl]
  simp only []
  rw [if_neg (fun hcon => hcon.1 (by decide)), if_neg (by decide)]

/-! ### Claim C8 -/

/-- C8: unknown resource id — when the upper-cased skill id is not a key of
SKILL_REGISTRY, get_skill answers 404 with the payment store unchanged and no
external effect: no invoice is created and nothing is persisted. -/
theorem c8_unknown_skill (secret : String) (now : Int) (isPaid : String → Bool)
    (createInv : Nat → String → Option Invoice) (loadContent : String → Option String)
    (store : PaymentStore) (sid auth : String)
    (h : List.lookup (pyUpper sid) SKILL_REGISTRY = none) :
    get_skill secret now isPaid createInv loadContent store sid auth =
      (.notFound, store, []) ∧
    SkillResponse.status .notFound = 404 := by
  refine ⟨?_, rfl⟩
  simp only [get_skill, h]

/-- Witness for C8 at skill id "zzz" (upper-cased to "ZZZ", not registered). -/
theorem c8_unknown_skill_witness :
    List.lookup (pyUpper "zzz") SKILL_REGISTRY = none ∧
    get_skill "s" 100 (fun _ => false) (fun _ _ => none) (fun _ => none) [] "zzz" "" =
      (.notFound, [], []) ∧
    SkillResponse.status .notFound = 404 :=
  ⟨by decide,
   (c8_unknown_skill "s" 100 (fun _ => false) (fun _ _ => none) (fun _ => none) [] "zzz" ""
     (by decide)).1,
   rfl⟩

/-! ### Claim C2 -/

/-- C2 counterexample: a request with a valid, matching credential succeeds
(the skill is served with the payment hash echoed) while the payment store is
left untouched — the PaymentRecord stored under the token's payment_hash
still has paid = false after the successful request, and no persistence
write happens. -/
theorem c2_counterexample :
    (get_skill "s" 100 (fun _ => false) (fun _ _ => none) (fun _ => some "content")
        [(phEmpty, ⟨"K01", false, 0, 50⟩)] "K01"
        ("L402 " ++ create_macaroon "s" 0 phEmpty "K01" ++ ":" ++ "")) =
      (SkillResponse.success "K01" phEmpty, [(phEmpty, ⟨"K01", false, 0, 50⟩)], []) ∧
    storeGet [(phEmpty, (⟨"K01", false, 0, 50⟩ : PaymentRecord))] phEmpty =
      some ⟨"K01", false, 0, 50⟩ ∧
    (⟨"K01", false, 0, 50⟩ : PaymentRecord).paid = false := by
  refine ⟨?_, by decide, rfl⟩
  simp only [get_skill, show List.lookup (pyUpper "K01") SKILL_REGISTRY =
    some ⟨"K01_what_is_stress.md", 50, "knowledge", "What is Stress?"⟩ from by decide]
  rw [if_pos (l402_header_ne_empty _ _), verify_K01_token]
  rw [if_pos rfl]
  rw [if_neg (by simp only [ne_eq, Option.some.injEq, not_not]; decide)]
  rfl

/-- C2 amended: the gated skill endpoint does not mark the PaymentRecord paid.
Whenever a credential header is presented — in particular after a successful
verification and resource match — the handler leaves the payment store exactly
as it was and performs no effect (no invoice creation, no persistence write),
so the record under the token's payment_hash keeps paid = false; no code path
of the server ever sets paid to true. -/
theorem c2_store_unchanged_with_auth (secret : String) (now : Int) (isPaid : String → Bool)
    (createInv : Nat → String → Option Invoice) (loadContent : String → Option String)
    (store : PaymentStore) (sid auth : String) (hauth : auth ≠ "") :
    (get_skill secret now isPaid createInv loadContent store sid auth).2.1 = store ∧
    (get_skill secret now isPaid createInv loadContent store sid auth).2.2 = [] := by
  simp only [get_skill]
  split
  · exact ⟨rfl, rfl⟩
  · rw [if_pos hauth]
    split
    · split
      · exact ⟨rfl, rfl⟩
      · split
        · exact ⟨rfl, rfl⟩
        · split
          · exact ⟨rfl, rfl⟩
          · exact ⟨rfl, rfl⟩
    · exact ⟨rfl, rfl⟩

/-- Witness for the amended C2 on the successful-access scenario. -/
theorem c2_store_unchanged_with_auth_witness :
    ("L402 " ++ create_macaroon "s" 0 phEmpty "K01" ++ ":" ++ "") ≠ "" ∧
    (get_skill "s" 100 (fun _ => false) (fun _ _ => none) (fun _ => some "content")
        [(phEmpty, ⟨"K01", false, 0, 50⟩)] "K01"
        ("L402 " ++ create_macaroon "s" 0 phEmpty "K01" ++ ":" ++ "")).2.1 =
      [(phEmpty, ⟨"K01", false, 0, 50⟩)] ∧
    (get_skill "s" 100 (fun _ => false) (fun _ _ => none) (fun _ => some "content")
        [(phEmpty, ⟨"K01", false, 0, 50⟩)] "K01"
        ("L402 " ++ create_macaroon "s" 0 phEmpty "K01" ++ ":" ++ "")).2.2 = [] :=
  ⟨l402_header_ne_empty _ _,
   (c2_store_unchanged_with_auth "s" 100 (fun _ => false) (fun _ _ => none)
     (fun _ => some "content") [(phEmpty, ⟨"K01", false, 0, 50⟩)] "K01"
     ("L402 " ++ create_macaroon "s" 0 phEmpty "K01" ++ ":" ++ "")
     (l402_header_ne_empty _ _)).1,
   (c2_store_unchanged_with_auth "s" 100 (fun _ => false) (fun _ _ => none)
     (fun _ => some "content") [(phEmpty, ⟨"K01", false, 0, 50⟩)] "K01"
     ("L402 " ++ create_macaroon "s" 0 phEmpty "K01" ++ ":" ++ "")
     (l402_header_ne_empty _ _)).2⟩

/-! ### Claim C6 -/

/-- C6 counterexample: a credential that verifies successfully but is bound to
trajectory T01 yields, when presented at the trajectory endpoint for T02, the
401 response "Invalid authorization" — not the 403 ResourceMismatch the claim
asserts for both endpoints. -/
theorem c6_counterexample :
    (verify_l402_auth "s" 100 (fun _ => false)
        ("L402 " ++ create_macaroon "s" 0 phEmpty "T01" ++ ":" ++ "")).valid = true ∧
    (verify_l402_auth "s" 100 (fun _ => false)
        ("L402 " ++ create_macaroon "s" 0 phEmpty "T01" ++ ":" ++ "")).skill_id =
      some "T01" ∧
    ("T01" : String) ≠ pyUpper "T02" ∧
    (get_trajectory "s" 100 (fun _ => false) (fun _ _ => none) [] "T02"
        ("L402 " ++ create_macaroon "s" 0 phEmpty "T01" ++ ":" ++ "")).1 =
      TrajResponse.unauthorized "Invalid authorization" ∧
    TrajResponse.status (TrajResponse.unauthorized "Invalid authorization") = 401 ∧
    (401 : Nat) ≠ 403 := by
  refine ⟨by rw [verify_T01_token], by rw [verify_T01_token], by decide, ?_, rfl, by decide⟩
  simp only [get_trajectory, show List.lookup (pyUpper "T02") TRAJECTORY_REGISTRY =
    some ⟨150, "Post-COVID — 12 Week Recovery Path", "trajectory"⟩ from by decide]
  rw [if_pos (l402_header_ne_empty _ _), verify_T01_token]
  rw [if_neg (fun hcon => by
    have := hcon.2
    simp only [Option.some.injEq] at this
    exact absurd this (by decide))]

/-- C6 amended: a successfully verifying credential bound to a different
resource is answered with 403 (ResourceMismatch) at the skill endpoint, but
the trajectory endpoint answers 401 "Invalid authorization" for the same
situation; neither endpoint ever serves the content. -/
theorem c6_resource_mismatch (secret : String) (now : Int) (isPaid : String → Bool)
    (createInv : Nat → String → Option Invoice) (loadContent : String → Option String)
    (store store2 : PaymentStore) (sidRaw tidRaw auth : String)
    (hauth : auth ≠ "")
    (hvalid : (verify_l402_auth secret now isPaid auth).valid = true)
    (hsreg : (List.lookup (pyUpper sidRaw) SKILL_REGISTRY).isSome = true)
    (hsmis : (verify_l402_auth secret now isPaid auth).skill_id ≠ some (pyUpper sidRaw))
    (htreg : (List.lookup (pyUpper tidRaw) TRAJECTORY_REGISTRY).isSome = true)
    (htmis : (verify_l402_auth secret now isPaid auth).skill_id ≠ some (pyUpper tidRaw)) :
    (get_skill secret now isPaid createInv loadContent store sidRaw auth).1 =
      SkillResponse.forbidden ∧
    SkillResponse.status SkillResponse.forbidden = 403 ∧
    (get_trajectory secret now isPaid createInv store2 tidRaw auth).1 =
      TrajResponse.unauthorized "Invalid authorization" ∧
    TrajResponse.status (TrajResponse.unauthorized "Invalid authorization") = 401 := by
  obtain ⟨meta, hmeta⟩ := Option.isSome_iff_exists.1 hsreg
  obtain ⟨tmeta, htmeta⟩ := Option.isSome_iff_exists.1 htreg
  refine ⟨?_, rfl, ?_, rfl⟩
  · simp only [get_skill, hmeta]
    rw [if_pos hauth, if_pos hvalid, if_pos hsmis]
  · simp only [get_trajectory, htmeta]
    rw [if_pos hauth, if_neg (fun hcon => htmis hcon.2)]

/-- Witness for the amended C6: a valid T01-bound token presented for skill
K01 and trajectory T02. -/
theorem c6_resource_mismatch_witness :
    ("L402 " ++ create_macaroon "s" 0 phEmpty "T01" ++ ":" ++ "") ≠ "" ∧
    (List.lookup (pyUpper "K01") SKILL_REGISTRY).isSome = true ∧
    (List.lookup (pyUpper "T02") TRAJECTORY_REGISTRY).isSome = true ∧
    (get_skill "s" 100 (fun _ => false) (fun _ _ => none) (fun _ => some "content") [] "K01"
        ("L402 " ++ create_macaroon "s" 0 phEmpty "T01" ++ ":" ++ "")).1 =
      SkillResponse.forbidden ∧
    (get_trajectory "s" 100 (fun _ => false) (fun _ _ => none) [] "T02"
        ("L402 " ++ create_macaroon "s" 0 phEmpty "T01" ++ ":" ++ "")).1 =
      TrajResponse.unauthorized "Invalid authorization" :=
  ⟨l402_header_ne_empty _ _, by decide, by decide,
   (c6_resource_mismatch "s" 100 (fun _ => false) (fun _ _ => none) (fun _ => some "content")
     [] [] "K01" "T02" ("L402 " ++ create_macaroon "s" 0 phEmpty "T01" ++ ":" ++ "")
     (l402_header_ne_empty _ _) (by rw [verify_T01_token]) (by decide)
     (by rw [verify_T01_token]; simp only [ne_eq, Option.some.injEq]; decide)
     (by decide)
     (by rw [verify_T01_token]; simp only [ne_eq, Option.some.injEq]; decide)).1,
   (c6_resource_mismatch "s" 100 (fun _ => false) (fun _ _ => none) (fun _ => some "content")
     [] [] "K01" "T02" ("L402 " ++ create_macaroon "s" 0 phEmpty "T01" ++ ":" ++ "")
     (l402_header_ne_empty _ _) (by rw [verify_T01_token]) (by decide)
     (by rw [verify_T01_token]; simp only [ne_eq, Option.some.injEq]; decide)
     (by decide)
     (by rw [verify_T01_token]; simp only [ne_eq, Option.some.injEq]; decide)).2.2.1⟩

/-! ### Claim C4 -/

/-- C4: the MOCK_MODE create_invoice does not derive a matching preimage.
At amount 50, memo "x" and time string "0.0", the returned _mock_preimage is
the SHA-256 hex digest of the payment_hash string, and the SHA-256 digest of
its decoded bytes differs from payment_hash — so the mock preimage is not
cryptographic proof of payment and the preimage check of verify_l402_auth
cannot accept it. -/
theorem c4_mock_preimage_not_matching :
    (create_invoice_mock 50 "x" "0.0").payment_hash =
      sha256Hex (utf8Bytes ("x0.0" : String).data) ∧
    (create_invoice_mock 50 "x" "0.0").mock_preimage =
      sha256Hex (utf8Bytes (create_invoice_mock 50 "x" "0.0").payment_hash.data) ∧
    (fromHexChars (create_invoice_mock 50 "x" "0.0").mock_preimage.data).isSome = true ∧
    sha256Hex ((fromHexChars (create_invoice_mock 50 "x" "0.0").mock_preimage.data).getD []) ≠
      (create_invoice_mock 50 "x" "0.0").payment_hash :=
  ⟨rfl, rfl, by decide, by decide⟩

/-! ### Claim C9 -/

/-- C9: verify_l402_auth is total and sound over arbitrary header strings —
it always returns a result whose valid flag is a boolean, every rejection
carries an error string, and valid = true arises only for a well-formed,
correctly signed, payment-proven, unexpired credential as recorded by
WellFormedAuth. (Python exceptions are modelled by the none results of the
fallible primitives, all of which are routed to an error dictionary.) -/
theorem c9_total_and_sound (secret : String) (now : Int) (isPaid : String → Bool)
    (auth_header : String) :
    ((verify_l402_auth secret now isPaid auth_header).valid = true →
      WellFormedAuth secret now isPaid auth_header
        (verify_l402_auth secret now isPaid auth_header)) ∧
    ((verify_l402_auth secret now isPaid auth_header).valid = false →
      ∃ e, (verify_l402_auth secret now isPaid auth_header).error = some e) := by
  unfold verify_l402_auth
  split
  · exact ⟨fun h => Bool.noConfusion h, fun _ => ⟨_, rfl⟩⟩
  · rename_i hpref
    split
    any_goals exact ⟨fun h => Bool.noConfusion h, fun _ => ⟨_, rfl⟩⟩
    rename_i tok pre rest2 hsplit1
    unfold verifyToken
    split
    any_goals exact ⟨fun h => Bool.noConfusion h, fun _ => ⟨_, rfl⟩⟩
    rename_i mb hb64
    split
    any_goals exact ⟨fun h => Bool.noConfusion h, fun _ => ⟨_, rfl⟩⟩
    rename_i mc hutf
    unfold verifyMac
    split
    any_goals exact ⟨fun h => Bool.noConfusion h, fun _ => ⟨_, rfl⟩⟩
    rename_i f1 f2 f3 f4 hsplit2
    split
    any_goals exact ⟨fun h => Bool.noConfusion h, fun _ => ⟨_, rfl⟩⟩
    rename_i hascii
    simp only []
    split
    any_goals exact ⟨fun h => Bool.noConfusion h, fun _ => ⟨_, rfl⟩⟩
    rename_i hsigeq
    split
    any_goals exact ⟨fun h => Bool.noConfusion h, fun _ => ⟨_, rfl⟩⟩
    rename_i pb hhex
    split
    any_goals exact ⟨fun h => Bool.noConfusion h, fun _ => ⟨_, rfl⟩⟩
    rename_i hpay
    split
    any_goals exact ⟨fun h => Bool.noConfusion h, fun _ => ⟨_, rfl⟩⟩
    rename_i ts hts
    split
    any_goals exact ⟨fun h => Bool.noConfusion h, fun _ => ⟨_, rfl⟩⟩
    rename_i hexp
    constructor
    · intro _
      refine ⟨tok, pre, rest2, mb, mc, f1, f2, f3, f4, pb, ts,
        ?_, hsplit1, hb64, hutf, hsplit2, ?_, ?_, hhex, ?_, hts, ?_, rfl⟩
      · cases hx : "L402 ".data.isPrefixOf auth_header.data
        · exact absurd hx hpref
        · rfl
      · exact not_not.mp hascii
      · exact not_not.mp hsigeq
      · rcases not_and_or.1 hpay with hs | hp
        · exact Or.inl (not_not.mp hs)
        · exact Or.inr (not_not.mp hp)
      · omega
    · intro h
      exact Bool.noConfusion h

/-- Witness for C9 at a concrete valid header: the totality conjunct holds
and the soundness conjunct yields the WellFormedAuth record. -/
theorem c9_total_and_sound_witness :
    (verify_l402_auth "s" 100 (fun _ => false)
        ("L402 " ++ create_macaroon "s" 0 phEmpty "K01" ++ ":" ++ "")).valid = true ∧
    WellFormedAuth "s" 100 (fun _ => false)
      ("L402 " ++ create_macaroon "s" 0 phEmpty "K01" ++ ":" ++ "")
      (verify_l402_auth "s" 100 (fun _ => false)
        ("L402 " ++ create_macaroon "s" 0 phEmpty "K01" ++ ":" ++ "")) :=
  have hv : (verify_l402_auth "s" 100 (fun _ => false)
      ("L402 " ++ create_macaroon "s" 0 phEmpty "K01" ++ ":" ++ "")).valid = true := by
    rw [verify_K01_token]
  ⟨hv, (c9_total_and_sound "s" 100 (fun _ => false)
    ("L402 " ++ create_macaroon "s" 0 phEmpty "K01" ++ ":" ++ "")).1 hv⟩


/-! ### Single-byte modifications (claim C5 machinery) -/

theorem char_eq_of_toNat_eq {c1 c2 : Char} (h : c1.toNat = c2.toNat) : c1 = c2 :=
  Char.eq_of_val_eq (UInt32.ext h)

theorem char_toNat_ofNat_lt : ∀ n, n < 128 → (Char.ofNat n).toNat = n := by decide

theorem mk_inj {l1 l2 : List Char} (h : (⟨l1⟩ : String) = ⟨l2⟩) : l1 = l2 :=
  congrArg String.data h

theorem verifyMac_not4 (secret : String) (now : Int) (isPaid : String → Bool)
    (macChars pre : List Char) (h : (splitCh ':' macChars).length ≠ 4) :
    verifyMac secret now isPaid macChars pre = verifyFail "Invalid macaroon structure" := by
  unfold verifyMac
  split
  · rename_i f1 f2 f3 f4 heq
    exact absurd (by simp [heq] : (splitCh ':' macChars).length = 4) h
  · rfl

theorem macDataChars_split (secret : String) (tMint : Int) (ph rid : String)
    (hph : ':' ∉ ph.data) (hrid : ':' ∉ rid.data) :
    splitCh ':' (macDataChars secret tMint ph rid) =
      [ph.data, rid.data, intToStrChars tMint,
       (hmacSha256Hex (utf8Bytes secret.data) (utf8Bytes (macPayloadChars tMint ph rid))).data] := by
  unfold macDataChars macPayloadChars
  have h4 := splitCh_four ':' ph.data rid.data (intToStrChars tMint)
    (hmacSha256Hex (utf8Bytes secret.data) (utf8Bytes (macPayloadChars tMint ph rid))).data
    hph hrid (intToStr_no_colon tMint) (hexStr_no_colon _)
  simpa [List.append_assoc, macPayloadChars] using h4

theorem splitCh_one_diff (c x y : Char) (pre suf : List Char)
    (hx : x ≠ c) (hy : y ≠ c) (hxy : x ≠ y) :
    ∃ P S l1 l2, splitCh c (pre ++ x :: suf) = P ++ l1 :: S ∧
      splitCh c (pre ++ y :: suf) = P ++ l2 :: S ∧ l1 ≠ l2 ∧
      (∃ p s, l1 = p ++ x :: s ∧ l2 = p ++ y :: s) := by
  induction pre with
  | nil =>
    cases h0 : splitCh c suf with
    | nil => exact absurd h0 (splitCh_ne_nil _ _)
    | cons h0h h0t =>
      refine ⟨[], h0t, x :: h0h, y :: h0h, ?_, ?_, ?_, [], h0h, rfl, rfl⟩
      · simpa using splitCh_cons_ne c x suf hx h0h h0t h0
      · simpa using splitCh_cons_ne c y suf hy h0h h0t h0
      · intro he
        exact hxy (by injection he)
  | cons p ps ih =>
    rcases ih with ⟨P, S, l1, l2, h1, h2, hne, pfx, sfx, e1, e2⟩
    by_cases hp : p = c
    · subst hp
      refine ⟨[] :: P, S, l1, l2, ?_, ?_, hne, pfx, sfx, e1, e2⟩
      · show splitCh p (p :: (ps ++ x :: suf)) = ([] :: P) ++ l1 :: S
        rw [splitCh_cons_eq, h1]
        rfl
      · show splitCh p (p :: (ps ++ y :: suf)) = ([] :: P) ++ l2 :: S
        rw [splitCh_cons_eq, h2]
        rfl
    · cases P with
      | nil =>
        refine ⟨[], S, p :: l1, p :: l2, ?_, ?_, ?_, p :: pfx, sfx, ?_, ?_⟩
        · show splitCh c (p :: (ps ++ x :: suf)) = (p :: l1) :: S
          exact splitCh_cons_ne c p _ hp l1 S (by simpa using h1)
        · show splitCh c (p :: (ps ++ y :: suf)) = (p :: l2) :: S
          exact splitCh_cons_ne c p _ hp l2 S (by simpa using h2)
        · intro he
          exact hne (by injection he)
        · rw [e1]
          rfl
        · rw [e2]
          rfl
      | cons P0 Ps =>
        refine ⟨(p :: P0) :: Ps, S, l1, l2, ?_, ?_, hne, pfx, sfx, e1, e2⟩
        · show splitCh c (p :: (ps ++ x :: suf)) = ((p :: P0) :: Ps) ++ l1 :: S
          have hstep := splitCh_cons_ne c p (ps ++ x :: suf) hp P0 (Ps ++ l1 :: S)
            (by rw [h1]; rfl)
          rw [hstep]
          rfl
        · show splitCh c (p :: (ps ++ y :: suf)) = ((p :: P0) :: Ps) ++ l2 :: S
          have hstep := splitCh_cons_ne c p (ps ++ y :: suf) hp P0 (Ps ++ l2 :: S)
            (by rw [h2]; rfl)
          rw [hstep]
          rfl

theorem verifyMac_badsig_invalid (secret : String) (now : Int) (isPaid : String → Bool)
    (macChars pre : List Char) (g1 g2 g3 g4 : List Char)
    (hsplit : splitCh ':' macChars = [g1, g2, g3, g4])
    (hbad : (⟨g4⟩ : String) ≠
      hmacSha256Hex (utf8Bytes secret.data) (utf8Bytes (g1 ++ ':' :: g2 ++ ':' :: g3))) :
    (verifyMac secret now isPaid macChars pre).valid = false := by
  unfold verifyMac
  rw [hsplit]
  simp only []
  by_cases ha : asciiChars g4
  · rw [if_neg (by simp [ha]), if_pos hbad]
    rfl
  · rw [if_pos (by simp [ha])]
    rfl

/-- C5 amended (core): any single-byte modification of a minted token's
claim-and-signature bytes is rejected by verify_l402_auth (valid = false),
provided the modification does not manufacture an HMAC collision
(noCollisionAt). The error is not always BadSignature: introducing or
destroying a ':' yields "Invalid macaroon structure", and a byte outside
ASCII fails the UTF-8 decode with a generic verification error. -/
theorem c5_modified_token_rejected (secret : String) (tMint tNow : Int)
    (isPaid : String → Bool) (ph rid rest : String)
    (hph : ':' ∉ ph.data) (hpha : asciiChars ph.data = true)
    (hrid : ':' ∉ rid.data) (hrida : asciiChars rid.data = true)
    (preB sufB : List Nat) (bOld bNew : Nat)
    (hdec : utf8Bytes (macDataChars secret tMint ph rid) = preB ++ bOld :: sufB)
    (hne : bNew ≠ bOld) (hlt : bNew < 256)
    (hcoll : noCollisionAt secret (macPayloadChars tMint ph rid)
      (preB ++ bNew :: sufB) = true) :
    (verify_l402_auth secret tNow isPaid
      ("L402 " ++ (⟨b64encodeChars (preB ++ bNew :: sufB)⟩ : String) ++ ":" ++ rest)).valid =
      false := by
  have hdata_a : asciiChars (macDataChars secret tMint ph rid) = true :=
    macDataChars_ascii secret tMint ph rid hpha hrida
  have hmap : utf8Bytes (macDataChars secret tMint ph rid) =
      (macDataChars secret tMint ph rid).map Char.toNat := utf8Bytes_ascii _ hdata_a
  have hmain : (macDataChars secret tMint ph rid).map Char.toNat = preB ++ bOld :: sufB := by
    rw [← hmap, hdec]
  have hOrig : ∀ b ∈ preB ++ bOld :: sufB, b < 128 := by
    intro b hb
    rw [← hmain] at hb
    rcases List.mem_map.1 hb with ⟨ch, hch, rfl⟩
    exact (asciiChars_iff _).1 hdata_a ch hch
  have hpreB : ∀ b ∈ preB, b < 128 := fun b hb => hOrig b (List.mem_append_left _ hb)
  have hsufB : ∀ b ∈ sufB, b < 128 :=
    fun b hb => hOrig b (List.mem_append_right _ (List.mem_cons_of_mem _ hb))
  have hD' : ∀ b ∈ preB ++ bNew :: sufB, b < 256 := by
    intro b hb
    rcases List.mem_append.1 hb with hb | hb
    · have := hpreB b hb
      omega
    · rcases List.mem_cons.1 hb with rfl | hb
      · exact hlt
      · have := hsufB b hb
        omega
  rw [verify_header secret tNow isPaid _ rest (b64encode_no_colon _),
    verifyToken_bytes secret tNow isPaid _ _ hD']
  by_cases hb128 : bNew < 128
  case neg =>
    rw [utf8Decode_highbyte preB sufB bNew hpreB hsufB (by omega)]
    rfl
  case pos =>
  obtain ⟨preC, rest1, hXeq, hmapPre, hmapRest⟩ := List.map_eq_append_iff.1 hmain
  obtain ⟨cOld, sufC, hrest1, hcOld, hmapSuf⟩ := List.map_eq_cons_iff.1 hmapRest
  subst hrest1
  have hmod_a : ∀ b ∈ preB ++ bNew :: sufB, b < 128 := by
    intro b hb
    rcases List.mem_append.1 hb with hb | hb
    · exact hpreB b hb
    · rcases List.mem_cons.1 hb with rfl | hb
      · exact hb128
      · exact hsufB b hb
  rw [utf8Decode_ascii _ hmod_a]
  simp only []
  have hchars : (preB ++ bNew :: sufB).map Char.ofNat = preC ++ Char.ofNat bNew :: sufC := by
    have hmodBytes : (preB ++ bNew :: sufB) =
        (preC ++ Char.ofNat bNew :: sufC).map Char.toNat := by
      rw [List.map_append, List.map_cons, hmapPre, hmapSuf, char_toNat_ofNat_lt bNew hb128]
    rw [hmodBytes, List.map_map]
    simp [Function.comp_def, Char.ofNat_toNat]
  rw [hchars]
  have hcne : Char.ofNat bNew ≠ cOld := by
    intro he
    apply hne
    rw [← char_toNat_ofNat_lt bNew hb128, he, hcOld]
  have hsplitX := macDataChars_split secret tMint ph rid hph hrid
  have hcount : (macDataChars secret tMint ph rid).count ':' = 3 := by
    have hl := splitCh_length ':' (macDataChars secret tMint ph rid)
    rw [hsplitX] at hl
    simp at hl
    omega
  have hcount' : (preC ++ cOld :: sufC).count ':' = 3 := by
    rw [← hXeq]
    exact hcount
  by_cases hyc : Char.ofNat bNew = ':'
  · have hxc : cOld ≠ ':' := by
      intro he
      exact hcne (by rw [hyc, he])
    rw [verifyMac_not4]
    · rfl
    · have h1 : preC.count ':' + sufC.count ':' = 3 := by
        have h0 := hcount'
        rw [List.count_append, List.count_cons_of_ne (Ne.symm hxc)] at h0
        exact h0
      have hcm : (preC ++ Char.ofNat bNew :: sufC).count ':' = 4 := by
        rw [List.count_append, hyc, List.count_cons_self]
        omega
      rw [splitCh_length, hcm]
      omega
  · by_cases hxcolon : cOld = ':'
    · rw [verifyMac_not4]
      · rfl
      · have h1 : preC.count ':' + sufC.count ':' = 2 := by
          have h0 := hcount'
          rw [List.count_append, hxcolon, List.count_cons_self] at h0
          omega
        have hcm : (preC ++ Char.ofNat bNew :: sufC).count ':' = 2 := by
          rw [List.count_append, List.count_cons_of_ne (Ne.symm hyc)]
          omega
        rw [splitCh_length, hcm]
        omega
    · obtain ⟨P, S, l1, l2, hs1, hs2, hl12, pfx, sfx, he1, he2⟩ :=
        splitCh_one_diff ':' cOld (Char.ofNat bNew) preC sufC hxcolon hyc
          (fun h => hcne h.symm)
      rw [← hXeq, hsplitX] at hs1
      have hl2_of : ∀ (hl1nc : ':' ∉ l1), ':' ∉ l2 := by
        intro hl1nc hm
        rw [he2] at hm
        rcases List.mem_append.1 hm with hm | hm
        · exact hl1nc (by rw [he1]; exact List.mem_append_left _ hm)
        · rcases List.mem_cons.1 hm with hm | hm
          · exact hyc hm.symm
          · exact hl1nc (by rw [he1]; exact List.mem_append_right _ (List.mem_cons_of_mem _ hm))
      cases P with
      | nil =>
        injection hs1.symm with ha1 ha2
        subst ha1
        subst ha2
        have hsplit2 : splitCh ':' (preC ++ Char.ofNat bNew :: sufC) =
            [l2, rid.data, intToStrChars tMint,
             (hmacSha256Hex (utf8Bytes secret.data)
               (utf8Bytes (macPayloadChars tMint ph rid))).data] := by
          simpa using hs2
        have hl2nc : ':' ∉ l2 := hl2_of hph
        refine verifyMac_badsig_invalid secret tNow isPaid _ _ _ _ _ _ hsplit2 ?_
        have hpay_ne : l2 ++ ':' :: rid.data ++ ':' :: intToStrChars tMint ≠
            macPayloadChars tMint ph rid := by
          intro heq
          have hA := splitCh_three ':' l2 rid.data (intToStrChars tMint) hl2nc hrid
            (intToStr_no_colon tMint)
          have hB := splitCh_three ':' ph.data rid.data (intToStrChars tMint) hph hrid
            (intToStr_no_colon tMint)
          simp only [macPayloadChars, List.append_assoc, List.cons_append] at heq
          rw [heq] at hA
          rw [hB] at hA
          injection hA with hB1 _
          exact hl12 hB1
        unfold noCollisionAt at hcoll
        rw [utf8Decode_ascii _ hmod_a, hchars] at hcoll
        simp only [] at hcoll
        rw [hsplit2] at hcoll
        simp only [] at hcoll
        simp only [Bool.or_eq_true, beq_iff_eq, bne_iff_ne] at hcoll
        rcases hcoll with hcoll | hcoll
        · exact absurd hcoll hpay_ne
        · exact fun he => hcoll he.symm
      | cons P0 P =>
        cases P with
        | nil =>
          injection hs1.symm with ha1 ha2
          injection ha2.symm with hb1 hb2
          subst ha1
          subst hb1
          subst hb2
          have hsplit2 : splitCh ':' (preC ++ Char.ofNat bNew :: sufC) =
              [ph.data, l2, intToStrChars tMint,
               (hmacSha256Hex (utf8Bytes secret.data)
                 (utf8Bytes (macPayloadChars tMint ph rid))).data] := by
            simpa using hs2
          have hl2nc : ':' ∉ l2 := hl2_of hrid
          refine verifyMac_badsig_invalid secret tNow isPaid _ _ _ _ _ _ hsplit2 ?_
          have hpay_ne : ph.data ++ ':' :: l2 ++ ':' :: intToStrChars tMint ≠
              macPayloadChars tMint ph rid := by
            intro heq
            have hA := splitCh_three ':' ph.data l2 (intToStrChars tMint) hph hl2nc
              (intToStr_no_colon tMint)
            have hB := splitCh_three ':' ph.data rid.data (intToStrChars tMint) hph hrid
              (intToStr_no_colon tMint)
            simp only [macPayloadChars, List.append_assoc, List.cons_append] at heq
            rw [heq] at hA
            rw [hB] at hA
            injection hA with _ hB2
            injection hB2 with hB3 _
            exact hl12 hB3
          unfold noCollisionAt at hcoll
          rw [utf8Decode_ascii _ hmod_a, hchars] at hcoll
          simp only [] at hcoll
          rw [hsplit2] at hcoll
          simp only [] at hcoll
          simp only [Bool.or_eq_true, beq_iff_eq, bne_iff_ne] at hcoll
          rcases hcoll with hcoll | hcoll
          · exact absurd hcoll hpay_ne
          · exact fun he => hcoll he.symm
        | cons P1 P =>
          cases P with
          | nil =>
            injection hs1.symm with ha1 ha2
            injection ha2.symm with hb1 hb2
            injection hb2.symm with hc1 hc2
            subst ha1
            subst hb1
            subst hc1
            subst hc2
            have hsplit2 : splitCh ':' (preC ++ Char.ofNat bNew :: sufC) =
                [ph.data, rid.data, l2,
                 (hmacSha256Hex (utf8Bytes secret.data)
                   (utf8Bytes (macPayloadChars tMint ph rid))).data] := by
              simpa using hs2
            have hl2nc : ':' ∉ l2 := hl2_of (intToStr_no_colon tMint)
            refine verifyMac_badsig_invalid secret tNow isPaid _ _ _ _ _ _ hsplit2 ?_
            have hpay_ne : ph.data ++ ':' :: rid.data ++ ':' :: l2 ≠
                macPayloadChars tMint ph rid := by
              intro heq
              have hA := splitCh_three ':' ph.data rid.data l2 hph hrid hl2nc
              have hB := splitCh_three ':' ph.data rid.data (intToStrChars tMint) hph hrid
                (intToStr_no_colon tMint)
              simp only [macPayloadChars, List.append_assoc, List.cons_append] at heq
              rw [heq] at hA
              rw [hB] at hA
              injection hA with _ hB2
              injection hB2 with _ hB3
              injection hB3 with hB4 _
              exact hl12 hB4
            unfold noCollisionAt at hcoll
            rw [utf8Decode_ascii _ hmod_a, hchars] at hcoll
            simp only [] at hcoll
            rw [hsplit2] at hcoll
            simp only [] at hcoll
            simp only [Bool.or_eq_true, beq_iff_eq, bne_iff_ne] at hcoll
            rcases hcoll with hcoll | hcoll
            · exact absurd hcoll hpay_ne
            · exact fun he => hcoll he.symm
          | cons P2 P =>
            cases P with
            | nil =>
              injection hs1.symm with ha1 ha2
              injection ha2.symm with hb1 hb2
              injection hb2.symm with hc1 hc2
              injection hc2.symm with hd1 hd2
              subst ha1
              subst hb1
              subst hc1
              subst hd1
              subst hd2
              have hsplit2 : splitCh ':' (preC ++ Char.ofNat bNew :: sufC) =
                  [ph.data, rid.data, intToStrChars tMint, l2] := by
                simpa using hs2
              refine verifyMac_badsig_invalid secret tNow isPaid _ _ _ _ _ _ hsplit2 ?_
              intro he
              apply hl12
              have hdata := congrArg String.data he
              rw [mk_data] at hdata
              rw [hdata]
              rfl
            | cons P3 P =>
              exfalso
              simp at hs1

/-- C5 counterexample to the literal claim: modifying the first byte of a
minted token (the 'e' of the payment hash, byte 101) into a ':' (byte 58)
makes verify_l402_auth fail with "Invalid macaroon structure", not with
the BadSignature error "Invalid macaroon signature", because the extra
separator changes the field count of the split. -/
theorem c5_counterexample :
    utf8Bytes (macDataChars "s" 0 phEmpty "K01") =
      [] ++ 101 :: (utf8Bytes (macDataChars "s" 0 phEmpty "K01")).tail ∧
    (58 : Nat) ≠ 101 ∧
    verify_l402_auth "s" 0 (fun _ => false)
      ("L402 " ++
        (⟨b64encodeChars
          ([] ++ 58 :: (utf8Bytes (macDataChars "s" 0 phEmpty "K01")).tail)⟩ : String) ++
        ":" ++ "00") =
      verifyFail "Invalid macaroon structure" ∧
    verifyFail "Invalid macaroon structure" ≠ verifyFail "Invalid macaroon signature" := by
  refine ⟨by decide, by decide, by decide, by decide⟩

/-- Witness for the amended C5 theorem: modifying the last signature byte of
the token minted with secret "s" at time 0 for payment hash phEmpty and
skill "K01" (byte 134, the hex digit 'b', changed to 'a') is rejected. -/
theorem c5_modified_token_rejected_witness :
    ':' ∉ phEmpty.data ∧ asciiChars phEmpty.data = true ∧
    ':' ∉ ("K01" : String).data ∧ asciiChars ("K01" : String).data = true ∧
    utf8Bytes (macDataChars "s" 0 phEmpty "K01") =
      (utf8Bytes (macDataChars "s" 0 phEmpty "K01")).take 134 ++
        ((utf8Bytes (macDataChars "s" 0 phEmpty "K01")).getD 134 0) :: [] ∧
    (97 : Nat) ≠ (utf8Bytes (macDataChars "s" 0 phEmpty "K01")).getD 134 0 ∧
    (97 : Nat) < 256 ∧
    noCollisionAt "s" (macPayloadChars 0 phEmpty "K01")
      ((utf8Bytes (macDataChars "s" 0 phEmpty "K01")).take 134 ++ 97 :: []) = true ∧
    (verify_l402_auth "s" 0 (fun _ => false)
      ("L402 " ++
        (⟨b64encodeChars
          ((utf8Bytes (macDataChars "s" 0 phEmpty "K01")).take 134 ++ 97 :: [])⟩ : String) ++
        ":" ++ "00")).valid = false :=
  ⟨by decide, by decide, by decide, by decide, by decide, by decide, by decide, by decide,
   c5_modified_token_rejected "s" 0 0 (fun _ => false) phEmpty "K01" "00"
     (by decide) (by decide) (by decide) (by decide)
     ((utf8Bytes (macDataChars "s" 0 phEmpty "K01")).take 134) []
     ((utf8Bytes (macDataChars "s" 0 phEmpty "K01")).getD 134 0) 97
     (by decide) (by decide) (by decide) (by decide)⟩
